import Mathlib

/-!
Shallow embedding of `src/checks/collector.py` (the `Collector` class of the
dd-agent collection orchestrator) and verification of the frozen claims about
its specification.

Modelling conventions:
* Python values that only flow through the collector (metric tuples, event
  records, resource snapshots, per-instance check results) are opaque `Nat`s,
  except the synthetic startup event whose fields the code constructs itself.
* A call into an external collaborator that may raise is modelled by an
  `Outcome` value recorded in the per-cycle environment `Env`: either
  `raises msg` (the call raises an exception) or `returns v`.
* Python dicts keyed by strings are association lists; `setA` is dict
  assignment (overwrite-or-add), `lookupA` is lookup, `removeA` is `del`.
* `payload.update(d)` for externally produced dicts is modelled by merging the
  dict's key names into the payload's `extraKeys` list (the values of those
  flattened top-level fields are irrelevant to every claim).
* The cooperative-stop flag `self.continue_running` is written from outside
  the running cycle by `stop()`; its successive reads at the three mid-cycle
  checkpoints (start of each checks.d iteration, start of each
  init-failed-check iteration, before each emitter invocation) are modelled by
  the stream `Env.cont : Nat → Bool` giving the value observed at the k-th
  checkpoint read of the cycle.
* Wall-clock reads `time.time()` are a single per-cycle `Env.now`; the timing
  numbers (collect/emit durations) do not influence any control flow that the
  claims mention.
-/

set_option maxRecDepth 4000

namespace DDCollector

/-- Outcome of invoking an external Python callable that may raise. -/
inductive Outcome (α : Type) where
  | raises (msg : String)
  | returns (val : α)
deriving Repr, DecidableEq

/-- `true` when the call returned normally. -/
def isReturns {α : Type} : Outcome α → Bool
  | .raises _ => false
  | .returns _ => true

/-- Opaque metric tuple. -/
abbrev Metric := Nat
/-- Opaque resource snapshot. -/
abbrev Snap := Nat
/-- Opaque per-instance result of a checks.d check `run()`. -/
abbrev InstanceStatus := Nat

/-- Event records: either opaque records produced by checks, or the synthetic
"Agent Startup" event whose fields `_build_payload` constructs itself. -/
inductive Event where
  | ev (n : Nat)
  | startup (api_key : String) (host : String) (timestamp : Nat)
      (event_type : String) (msg_text : String)
deriving Repr, DecidableEq

/-- Python dict lookup `m.get(k)` on a string-keyed association list. -/
def lookupA {α : Type} : List (String × α) → String → Option α
  | [], _ => none
  | (k', v) :: rest, k => if k' = k then some v else lookupA rest k

/-- Python dict assignment `m[k] = v`: overwrite in place or append the key. -/
def setA {α : Type} : List (String × α) → String → α → List (String × α)
  | [], k, v => [(k, v)]
  | (k', v') :: rest, k, v =>
    if k' = k then (k, v) :: rest else (k', v') :: setA rest k v

/-- Python `k in m`. -/
def hasKeyA {α : Type} (m : List (String × α)) (k : String) : Bool :=
  (lookupA m k).isSome

/-- Python `del m[k]`. -/
def removeA {α : Type} : List (String × α) → String → List (String × α)
  | [], _ => []
  | (k', v') :: rest, k =>
    if k' = k then removeA rest k else (k', v') :: removeA rest k

/-- The append-or-create merge used for event sequences:
`events[k] += es` when `k` is already present, `events[k] = es` otherwise
(collector.py lines 201-204 and 266-269). -/
def appendOrCreate (m : List (String × List Event)) (k : String)
    (es : List Event) : List (String × List Event) :=
  match lookupA m k with
  | some old => setA m k (old ++ es)
  | none => setA m k es

/-- Add one dict key name to the payload's flattened key set. -/
def addKey (ks : List String) (k : String) : List String :=
  if k ∈ ks then ks else ks ++ [k]

/-- Add a list of dict key names (`payload.update(d)` at the key level). -/
def addKeys (ks : List String) (new : List String) : List String :=
  new.foldl addKey ks

/-- The `resources['meta']` entry (collector.py lines 234-238). -/
structure MetaEntry where
  api_key : String
  host : String
deriving Repr, DecidableEq

/-- One `resources[<key>]` entry (collector.py lines 227-231). -/
structure ResValue where
  snaps : List Snap
  format_version : Nat
  format_description : Option String
deriving Repr, DecidableEq

/-- The per-cycle payload dict.  Sections every claim touches are explicit
fields; the OS-specific / legacy fields flattened at top level are tracked by
their key names in `extraKeys`. -/
structure Payload where
  collection_timestamp : Nat
  os : String
  python : String
  agentVersion : String
  apiKey : String
  events : List (String × List Event)
  metrics : List Metric
  resources : List (String × ResValue)
  resources_meta : Option MetaEntry
  internalHostname : String
  uuid : String
  systemStats : Option (List Nat)
  meta : Option (List (String × String))
  tags : Option (List String)
  extraKeys : List String
deriving Repr, DecidableEq

/-- The top-level key names of the payload dict in its current state. -/
def payloadBaseKeys : List String :=
  ["collection_timestamp", "os", "python", "agentVersion", "apiKey",
   "events", "metrics", "resources", "internalHostname", "uuid"]

/-- All top-level keys currently present in the payload dict. -/
def payloadKeys (p : Payload) : List String :=
  payloadBaseKeys
  ++ (if p.systemStats.isSome then ["systemStats"] else [])
  ++ (if p.meta.isSome then ["meta"] else [])
  ++ (if p.tags.isSome then ["tags"] else [])
  ++ p.extraKeys

/-- `checks.check_status.CheckStatus` as used by the collector: positional
arguments `(name, instance_statuses, metric_count, event_count)` plus the
keyword arguments used for init-failed checks. -/
structure CheckStatus where
  name : String
  instance_statuses : Option (List InstanceStatus)
  metric_count : Option Nat
  event_count : Option Nat
  init_failed_error : Option String
  init_failed_traceback : Option String
deriving Repr, DecidableEq

/-- `checks.check_status.EmitterStatus`: name plus optional failure reason. -/
structure EmitterStatus where
  name : String
  failure : Option String
deriving Repr, DecidableEq

/-- Per-cycle behaviour of one checks.d-style check: the outcomes of its
`run()`, `get_metrics()` and `get_events()` calls. -/
structure CheckD where
  name : String
  run_outcome : Outcome (List InstanceStatus)
  metrics_outcome : Outcome (List Metric)
  events_outcome : Outcome (List Event)
deriving Repr, DecidableEq

/-- The `{error, traceback}` record of a check that failed to initialize. -/
structure InitFailInfo where
  error : String
  traceback : String
deriving Repr, DecidableEq

/-- The `checksd` argument of `run()` when it is a (truthy) dict. -/
structure ChecksD where
  initialized_checks : List CheckD
  init_failed_checks : List (String × InitFailInfo)
deriving Repr, DecidableEq

/-- Per-cycle behaviour of one event check (`check(log, config)` plus its
stable `key` attribute). -/
structure EventCheck where
  key : String
  outcome : Outcome (List Event)
deriving Repr, DecidableEq

/-- Per-cycle behaviour of one resource check: `check()`, `pop_snapshots()`,
`get_format_version()`, `describe_format_if_needed()`, `RESOURCE_KEY`. -/
structure ResourceCheck where
  resource_key : String
  check_outcome : Outcome Unit
  pop_outcome : Outcome (List Snap)
  format_version : Nat
  format_description : Option String
deriving Repr, DecidableEq

/-- Per-cycle behaviour of one emitter callable, with its `__name__`. -/
structure Emitter where
  name : String
  outcome : Outcome Unit
deriving Repr, DecidableEq

/-- The dict returned by `self._dogstream.check(...)` when truthy: the nested
event list under the reserved `dogstreamEvents` sub-key, and the names of the
remaining keys merged into the payload top level. -/
structure DogstreamData where
  dogstreamEvents : List Event
  otherKeys : List String
deriving Repr, DecidableEq

/-- Per-cycle behaviour of the six Unix system checks. -/
structure UnixEnv where
  disk : Outcome (Option (List Nat))
  load : Outcome (List String)
  memory : Outcome Bool
  iostats : Outcome Bool
  processes : Outcome Unit
  cpu : Outcome (Option (List String))
deriving Repr, DecidableEq

/-- Per-cycle behaviour of the six Win32 system checks. -/
structure WinEnv where
  disk : Outcome (List Metric)
  memory : Outcome (List Metric)
  cpu : Outcome (List Metric)
  network : Outcome (List Metric)
  iostats : Outcome (List Metric)
  proc : Outcome (List Metric)
deriving Repr, DecidableEq

/-- The agent configuration fields the collector reads. -/
structure AgentConfig where
  api_key : String
  version : String
  tags : Option (List String)
  hostname : Option String
  system_stats : List Nat
deriving Repr, DecidableEq

/-- The mutable state of a `Collector` object.  `continue_running` is not a
field here: its mid-cycle reads are modelled by the checkpoint stream
`Env.cont` (it is written concurrently by `stop()`). -/
structure Collector where
  emit_duration : Option Nat
  agentConfig : AgentConfig
  os : String
  metadata_interval : Nat
  metadata_start : Nat
  run_count : Nat
  metadata_cache : Option (List (String × String))
  initialized_checks_d : List CheckD
  init_failed_checks_d : List (String × InitFailInfo)
deriving Repr, DecidableEq

/-- `Collector.__init__`: the state-relevant initialisation (emit_duration
None, run_count 0, empty metadata cache, empty checks.d sets,
`metadata_start = time.time()` at construction). -/
def mkCollector (cfg : AgentConfig) (os_name : String) (metadata_interval : Nat)
    (t0 : Nat) : Collector :=
  { emit_duration := none
    agentConfig := cfg
    os := os_name
    metadata_interval := metadata_interval
    metadata_start := t0
    run_count := 0
    metadata_cache := none
    initialized_checks_d := []
    init_failed_checks_d := [] }

/-- The per-cycle environment: one value for each read of wall-clock time or
call into an external collaborator that `run()` performs this cycle. -/
structure Env where
  now : Nat
  hostname : String
  canonical_hostname : String
  uuid : String
  python_version : String
  version_str : String
  fresh_system_stats : List Nat
  ec2_metadata : List (String × String)
  socket_hostname : Outcome String
  socket_fqdn : Outcome String
  unix : UnixEnv
  win : WinEnv
  ganglia : Outcome Bool
  dogstream : Outcome (Option DogstreamData)
  ddforwarder : Outcome Bool
  event_checks : List EventCheck
  resources_checks : List ResourceCheck
  metrics_checks : List (Outcome (List Metric))
  agent_metrics : Outcome (List Metric)
  emitters : List Emitter
  persist_outcome : Outcome Unit
  cont : Nat → Bool
  emit_duration_val : Nat

/-- What a completed (non-raising, non-stopped) cycle produced. -/
structure CycleReport where
  payload : Payload
  check_statuses : List CheckStatus
  emitter_statuses : List EmitterStatus
  emitted : List String
  persist_called : Bool
  persist_ok : Bool
  persisted_metadata : Option (List (String × String))
deriving Repr, DecidableEq

/-- The observable result of one `run()` call: an uncaught exception
propagated to the caller, an early silent return at a checks.d /
init-failed-check checkpoint (nothing emitted, nothing persisted), or a
completed cycle. -/
inductive RunOutcome where
  | raised (msg : String)
  | stopped
  | completed (report : CycleReport)
deriving Repr, DecidableEq

/-- `Collector._is_first_run` (line 338-339): `run_count <= 1`. -/
def isFirstRun (C : Collector) : Bool :=
  decide (C.run_count ≤ 1)

/-- The synthetic startup event injected under `events['System']`
(lines 363-368). -/
def startupEvent (cfg : AgentConfig) (host : String) (now : Nat)
    (version_str : String) : Event :=
  Event.startup cfg.api_key host now "Agent Startup" ("Version " ++ version_str)

/-- `Collector._get_metadata` (lines 390-410). -/
def getMetadata (cfg : AgentConfig) (env : Env) : List (String × String) :=
  let md := env.ec2_metadata
  let md1 :=
    match lookupA md "hostname" with
    | some h =>
      if h.isEmpty then md
      else setA (removeA md "hostname") "ec2-hostname" h
    | none => md
  let md2 :=
    match cfg.hostname with
    | some h =>
      if h.isEmpty then
        match env.socket_hostname with
        | .returns sh => setA md1 "socket-hostname" sh
        | .raises _ => md1
      else setA md1 "agent-hostname" h
    | none =>
      match env.socket_hostname with
      | .returns sh => setA md1 "socket-hostname" sh
      | .raises _ => md1
  let md3 :=
    match env.socket_fqdn with
    | .returns f => setA md2 "socket-fqdn" f
    | .raises _ => md2
  setA md3 "hostname" env.canonical_hostname

/-- The base payload dict of `_build_payload` (lines 345-357). -/
def basePayload (C : Collector) (env : Env) : Payload :=
  { collection_timestamp := env.now
    os := C.os
    python := env.python_version
    agentVersion := C.agentConfig.version
    apiKey := C.agentConfig.api_key
    events := []
    metrics := []
    resources := []
    resources_meta := none
    internalHostname := env.hostname
    uuid := env.uuid
    systemStats := none
    meta := none
    tags := none
    extraKeys := [] }

/-- `Collector._build_payload` (lines 341-388).  Returns the payload together
with the updated collector state (metadata cache, and — only when
`_should_send_metadata` fired — the reset `metadata_start` timestamp; the
`or` at line 371 short-circuits, so on a first run `_should_send_metadata`
is never called and `metadata_start` is left unchanged). -/
def buildPayload (C : Collector) (env : Env) (start_event : Bool) :
    Payload × Collector :=
  let p0 := basePayload C env
  let p1 :=
    if start_event && isFirstRun C then
      { p0 with
        systemStats := some C.agentConfig.system_stats
        events := setA p0.events "System"
          [startupEvent C.agentConfig p0.internalHostname env.now env.version_str] }
    else p0
  if isFirstRun C then
    let md := getMetadata C.agentConfig env
    ({ p1 with
        systemStats := some env.fresh_system_stats
        meta := some md
        tags := C.agentConfig.tags },
     { C with metadata_cache := some md })
  else if C.metadata_start + C.metadata_interval ≤ env.now then
    let md := getMetadata C.agentConfig env
    ({ p1 with
        systemStats := some env.fresh_system_stats
        meta := some md
        tags := C.agentConfig.tags },
     { C with metadata_cache := some md, metadata_start := env.now })
  else (p1, C)

/-- The 12 memory keys merged at lines 163-176. -/
def memKeys : List String :=
  ["memPhysUsed", "memPhysPctUsable", "memPhysFree", "memPhysTotal",
   "memPhysUsable", "memSwapUsed", "memSwapFree", "memSwapPctFree",
   "memSwapTotal", "memCached", "memBuffers", "memShared"]

/-- Top-level key names the Unix system-check section adds (lines 152-187),
given the six checks' return values. -/
def unixAddedKeys (du : Option (List Nat)) (loadKeys : List String)
    (memOk : Bool) (ioOk : Bool) (cpu : Option (List String)) : List String :=
  (match du with
   | some l => if !l.isEmpty && l.length == 2 then ["diskUsage", "inodes"] else []
   | none => [])
  ++ loadKeys
  ++ (if memOk then memKeys else [])
  ++ (if ioOk then ["ioStats"] else [])
  ++ ["processes"]
  ++ (match cpu with | some cks => cks | none => [])

/-- The Unix system-check section (lines 149-187).  None of these calls is
wrapped in a try/except, so the first raising check propagates out of
`run()`.  The dict updates made between two calls are unobservable when a
later call raises (the payload is discarded with the cycle), so the
successful case applies all the key additions at once, in source order. -/
def unixPhase (u : UnixEnv) (p : Payload) : Outcome Payload :=
  match u.disk with
  | .raises m => .raises m
  | .returns du =>
  match u.load with
  | .raises m => .raises m
  | .returns lk =>
  match u.memory with
  | .raises m => .raises m
  | .returns memOk =>
  match u.iostats with
  | .raises m => .raises m
  | .returns ioOk =>
  match u.processes with
  | .raises m => .raises m
  | .returns _ =>
  match u.cpu with
  | .raises m => .raises m
  | .returns cpu =>
    .returns { p with extraKeys := addKeys p.extraKeys (unixAddedKeys du lk memOk ioOk cpu) }

/-- The Win32 system-check section (lines 139-147): the six `metrics.extend`
calls are wrapped in ONE try/except, so a raise keeps the metrics extended so
far, skips the rest of the batch, and the cycle continues. -/
def winPhase (w : WinEnv) (p : Payload) : Payload :=
  match w.disk with
  | .raises _ => p
  | .returns m1 =>
    let p1 := { p with metrics := p.metrics ++ m1 }
    match w.memory with
    | .raises _ => p1
    | .returns m2 =>
      let p2 := { p1 with metrics := p1.metrics ++ m2 }
      match w.cpu with
      | .raises _ => p2
      | .returns m3 =>
        let p3 := { p2 with metrics := p2.metrics ++ m3 }
        match w.network with
        | .raises _ => p3
        | .returns m4 =>
          let p4 := { p3 with metrics := p3.metrics ++ m4 }
          match w.iostats with
          | .raises _ => p4
          | .returns m5 =>
            let p5 := { p4 with metrics := p4.metrics ++ m5 }
            match w.proc with
            | .raises _ => p5
            | .returns m6 => { p5 with metrics := p5.metrics ++ m6 }

/-- Merging the truthy dogstream result (lines 198-207): extract the nested
`dogstreamEvents` list into the append-or-create events merge, delete the
sub-key, and merge the remaining keys into the payload top level. -/
def mergeDogstream (dd : Option DogstreamData) (p : Payload) : Payload :=
  match dd with
  | none => p
  | some d =>
    let p1 :=
      if !d.dogstreamEvents.isEmpty then
        { p with events := appendOrCreate p.events "dogstream" d.dogstreamEvents }
      else p
    { p1 with extraKeys := addKeys p1.extraKeys d.otherKeys }

/-- The legacy/bridge check section (lines 190-211): the three `check(...)`
calls happen first, in order, unprotected (the first raise propagates before
any merging); then ganglia / dogstream / ddforwarder results are merged. -/
def legacyPhase (env : Env) (p : Payload) : Outcome Payload :=
  match env.ganglia, env.dogstream, env.ddforwarder with
  | .raises m, _, _ => .raises m
  | .returns _, .raises m, _ => .raises m
  | .returns _, .returns _, .raises m => .raises m
  | .returns g, .returns dd, .returns f =>
    let p1 := if g then { p with extraKeys := addKey p.extraKeys "ganglia" } else p
    let p2 := mergeDogstream dd p1
    .returns (if f then { p2 with extraKeys := addKey p2.extraKeys "datadog" } else p2)

/-- The event-check section (lines 214-217): unprotected `check(log, config)`
calls; a truthy result is ASSIGNED at `events[check.key]` (dict assignment,
not the append-or-create merge). -/
def eventChecksPhase : List EventCheck → Payload → Outcome Payload
  | [], p => .returns p
  | ec :: rest, p =>
    match ec.outcome with
    | .raises m => .raises m
    | .returns es =>
      eventChecksPhase rest
        (if !es.isEmpty then { p with events := setA p.events ec.key es } else p)

/-- The resource-check loop (lines 222-232): `check()` then `pop_snapshots()`,
both unprotected; non-empty snapshots set `has_resource` and store the
`resources[<key>]` entry. -/
def resourcesLoop (rcs : List ResourceCheck) (p : Payload) (has : Bool) :
    Outcome (Payload × Bool) :=
  match rcs with
  | [] => .returns (p, has)
  | rc :: rest =>
    match rc.check_outcome with
    | .raises m => .raises m
    | .returns _ =>
      match rc.pop_outcome with
      | .raises m => .raises m
      | .returns snaps =>
        if !snaps.isEmpty then
          let res_value : ResValue :=
            { snaps := snaps
              format_version := rc.format_version
              format_description := rc.format_description }
          resourcesLoop rest
            { p with resources := setA p.resources rc.resource_key res_value }
            true
        else resourcesLoop rest p has

/-- The whole resource section (lines 220-238), executed only when the OS is
not windows: after the loop, `has_resource` adds the shared
`resources['meta']` entry exactly once. -/
def resourcesPhase (cfg : AgentConfig) (rcs : List ResourceCheck) (p : Payload) :
    Outcome Payload :=
  match resourcesLoop rcs p false with
  | .raises m => .raises m
  | .returns pr =>
    .returns
      (if pr.2 then
        { pr.1 with resources_meta := some { api_key := cfg.api_key, host := pr.1.internalHostname } }
      else pr.1)

/-- The custom metrics-check loop (lines 241-244): unprotected `check(config)`
calls; a truthy result extends `payload['metrics']`. -/
def metricsChecksPhase : List (Outcome (List Metric)) → Payload → Outcome Payload
  | [], p => .returns p
  | mc :: rest, p =>
    match mc with
    | .raises m => .raises m
    | .returns ms =>
      metricsChecksPhase rest
        (if !ms.isEmpty then { p with metrics := p.metrics ++ ms } else p)

/-- The CheckStatus built for one checks.d check (lines 252-276): the local
variables start at `[]`/0/0, an exception anywhere in the try block leaves
whatever was already assigned, and one CheckStatus is built regardless. -/
def statusOfCheckD (c : CheckD) : CheckStatus :=
  match c.run_outcome with
  | .raises _ =>
    { name := c.name, instance_statuses := some [], metric_count := some 0,
      event_count := some 0, init_failed_error := none, init_failed_traceback := none }
  | .returns insts =>
    match c.metrics_outcome with
    | .raises _ =>
      { name := c.name, instance_statuses := some insts, metric_count := some 0,
        event_count := some 0, init_failed_error := none, init_failed_traceback := none }
    | .returns ms =>
      match c.events_outcome with
      | .raises _ =>
        { name := c.name, instance_statuses := some insts, metric_count := some 0,
          event_count := some 0, init_failed_error := none, init_failed_traceback := none }
      | .returns es =>
        { name := c.name, instance_statuses := some insts,
          metric_count := some ms.length, event_count := some es.length,
          init_failed_error := none, init_failed_traceback := none }

/-- The body of one checks.d iteration (lines 251-277): run, get_metrics,
get_events, then extend metrics and append-or-create events — any raise is
caught and leaves the payload with whatever was merged before the raising
call (nothing, since the merges come after all three calls). -/
def runCheckD (p : Payload) (c : CheckD) : Payload × CheckStatus :=
  match c.run_outcome with
  | .raises _ => (p, statusOfCheckD c)
  | .returns _ =>
    match c.metrics_outcome with
    | .raises _ => (p, statusOfCheckD c)
    | .returns ms =>
      match c.events_outcome with
      | .raises _ => (p, statusOfCheckD c)
      | .returns es =>
        let p1 := { p with metrics := p.metrics ++ ms }
        let p2 :=
          if !es.isEmpty then { p1 with events := appendOrCreate p1.events c.name es }
          else p1
        (p2, statusOfCheckD c)

/-- The checks.d loop (lines 248-277), reading the cooperative-stop flag at
the start of each iteration (`cont k` is the k-th checkpoint read).  `none`
models the bare `return` at line 250. -/
def checksDLoop (cont : Nat → Bool) :
    Nat → List CheckD → Payload → List CheckStatus →
    Option (Payload × List CheckStatus × Nat)
  | k, [], p, acc => some (p, acc, k)
  | k, c :: rest, p, acc =>
    if cont k then
      let pc := runCheckD p c
      checksDLoop cont (k + 1) rest pc.1 (acc ++ [pc.2])
    else none

/-- The CheckStatus of a check that failed to initialize (lines 282-284). -/
def initFailStatus (entry : String × InitFailInfo) : CheckStatus :=
  { name := entry.1, instance_statuses := none, metric_count := none,
    event_count := none, init_failed_error := some entry.2.error,
    init_failed_traceback := some entry.2.traceback }

/-- The init-failed-check loop (lines 279-285), also reading the stop flag at
the start of each iteration; `none` models the bare `return` at line 281. -/
def initFailedLoop (cont : Nat → Bool) :
    Nat → List (String × InitFailInfo) → List CheckStatus →
    Option (List CheckStatus × Nat)
  | k, [], acc => some (acc, k)
  | k, entry :: rest, acc =>
    if cont k then initFailedLoop cont (k + 1) rest (acc ++ [initFailStatus entry])
    else none

/-- The EmitterStatus built for one emitter (lines 329-334): the bare status
is replaced by one carrying the exception when the emitter raises. -/
def emitterStatusOf (e : Emitter) : EmitterStatus :=
  match e.outcome with
  | .raises m => { name := e.name, failure := some m }
  | .returns _ => { name := e.name, failure := none }

/-- `Collector._emit` (lines 321-336): before each emitter the stop flag is
read; if clear the emitter is invoked (isolated: a raise is logged and
recorded), otherwise the statuses gathered so far are returned.  Also
returns the names of the emitters actually invoked and the next checkpoint
index. -/
def emitLoop (cont : Nat → Bool) :
    Nat → List Emitter → List EmitterStatus → List String →
    List EmitterStatus × List String × Nat
  | k, [], acc, inv => (acc, inv, k)
  | k, e :: rest, acc, inv =>
    if cont k then
      emitLoop cont (k + 1) rest (acc ++ [emitterStatusOf e]) (inv ++ [e.name])
    else (acc, inv, k)

/-- Lines 133-135: a truthy `checksd` argument replaces both checks.d sets;
a falsy one (e.g. the default `None`) leaves the stored sets untouched. -/
def applyChecksd (C : Collector) : Option ChecksD → Collector
  | some cd =>
    { C with initialized_checks_d := cd.initialized_checks,
             init_failed_checks_d := cd.init_failed_checks }
  | none => C

/-- `Collector.run` (lines 120-318).  The phases appear in source order:
increment run_count, build the payload, store the checksd sets, system
checks (per OS), legacy checks, event checks, resource checks (non-windows),
custom metrics checks, checks.d loop, init-failed loop, agent self-metrics,
emit, persist (caught).  A `.raised` outcome is an exception escaping
`run()`; `.stopped` is the early silent return at a checks.d or init-failed
checkpoint. -/
def Collector.run (C0 : Collector) (env : Env) (checksd : Option ChecksD)
    (start_event : Bool) : Collector × RunOutcome :=
  let Ca := { C0 with run_count := C0.run_count + 1 }
  let bp := buildPayload Ca env start_event
  let Cb := applyChecksd bp.2 checksd
  let sysRes : Outcome Payload :=
    if Cb.os = "windows" then .returns (winPhase env.win bp.1)
    else unixPhase env.unix bp.1
  match sysRes with
  | .raises m => (Cb, .raised m)
  | .returns p1 =>
    match legacyPhase env p1 with
    | .raises m => (Cb, .raised m)
    | .returns p2 =>
      match eventChecksPhase env.event_checks p2 with
      | .raises m => (Cb, .raised m)
      | .returns p3 =>
        let resRes : Outcome Payload :=
          if Cb.os = "windows" then .returns p3
          else resourcesPhase Cb.agentConfig env.resources_checks p3
        match resRes with
        | .raises m => (Cb, .raised m)
        | .returns p4 =>
          match metricsChecksPhase env.metrics_checks p4 with
          | .raises m => (Cb, .raised m)
          | .returns p5 =>
            match checksDLoop env.cont 0 Cb.initialized_checks_d p5 [] with
            | none => (Cb, .stopped)
            | some r6 =>
              match initFailedLoop env.cont r6.2.2 Cb.init_failed_checks_d r6.2.1 with
              | none => (Cb, .stopped)
              | some r7 =>
                match env.agent_metrics with
                | .raises m => (Cb, .raised m)
                | .returns ams =>
                  let p7 := { r6.1 with metrics := r6.1.metrics ++ ams }
                  let er := emitLoop env.cont r7.2 env.emitters [] []
                  ({ Cb with emit_duration := some env.emit_duration_val },
                   .completed
                     { payload := p7
                       check_statuses := r7.1
                       emitter_statuses := er.1
                       emitted := er.2.1
                       persist_called := true
                       persist_ok := isReturns env.persist_outcome
                       persisted_metadata := Cb.metadata_cache })

/-- `Collector.stop` (lines 106-118) sets `continue_running` to `False` and
asks every initialized checks.d check to stop.  In this embedding the flag
write is visible to the running cycle through `Env.cont`: once `stop()` has
run, every later checkpoint read observes `false` (the flag is a one-way
latch, never reset). -/
def StopLatch (cont : Nat → Bool) : Prop :=
  ∀ i j : Nat, i ≤ j → cont i = false → cont j = false

/-- Did the cycle complete (reach the status-persistence step)? -/
def isCompleted : RunOutcome → Bool
  | .completed _ => true
  | _ => false

/-- The CheckStatus list of a completed cycle. -/
def runStatuses : RunOutcome → Option (List CheckStatus)
  | .completed r => some r.check_statuses
  | _ => none

/-- The EmitterStatus list of a completed cycle. -/
def runEmitterStatuses : RunOutcome → Option (List EmitterStatus)
  | .completed r => some r.emitter_statuses
  | _ => none

/-- The names of the emitters actually invoked: `none` when the cycle never
reached the emit step at all. -/
def runEmitted : RunOutcome → Option (List String)
  | .completed r => some r.emitted
  | _ => none

/-- Whether the run reached the `CollectorStatus(...).persist()` call. -/
def runPersistCalled : RunOutcome → Bool
  | .completed r => r.persist_called
  | _ => false

/-- The `resources['meta']` entry of the final payload of a completed cycle. -/
def runResMeta : RunOutcome → Option (Option MetaEntry)
  | .completed r => some r.payload.resources_meta
  | _ => none

/-- The event sequence stored under source key `k` in the final payload. -/
def runEventsAt (o : RunOutcome) (k : String) : Option (List Event) :=
  match o with
  | .completed r => lookupA r.payload.events k
  | .raised _ => none
  | .stopped => none

/-- The final payload of a completed cycle (the one handed to the emitters). -/
def runPayload : RunOutcome → Option Payload
  | .completed r => some r.payload
  | _ => none

/-- All external calls shared by both OS branches return normally this cycle
(legacy checks, event checks, custom metrics checks, agent self-metrics).
These are exactly the calls `run()` performs with NO surrounding
try/except. -/
abbrev EnvOkCommon (env : Env) : Prop :=
  isReturns env.ganglia = true ∧ isReturns env.dogstream = true ∧
  isReturns env.ddforwarder = true ∧
  (∀ ec ∈ env.event_checks, isReturns ec.outcome = true) ∧
  (∀ mc ∈ env.metrics_checks, isReturns mc = true) ∧
  isReturns env.agent_metrics = true

/-- On the non-windows branch additionally the six Unix system checks and
every resource check (all equally unprotected) return normally. -/
abbrev EnvOkUnix (env : Env) : Prop :=
  EnvOkCommon env ∧
  isReturns env.unix.disk = true ∧ isReturns env.unix.load = true ∧
  isReturns env.unix.memory = true ∧ isReturns env.unix.iostats = true ∧
  isReturns env.unix.processes = true ∧ isReturns env.unix.cpu = true ∧
  (∀ rc ∈ env.resources_checks,
    isReturns rc.check_outcome = true ∧ isReturns rc.pop_outcome = true)

/-- Did at least one resource check produce at least one snapshot? -/
def anySnaps (rcs : List ResourceCheck) : Bool :=
  rcs.any (fun rc =>
    match rc.pop_outcome with
    | .returns s => !s.isEmpty
    | .raises _ => false)

/-- A small concrete agent configuration used for concrete evaluations. -/
def cfg0 : AgentConfig :=
  { api_key := "key0", version := "4.2.1", tags := none,
    hostname := some "cfg-host", system_stats := [7] }

/-- A neutral concrete per-cycle environment: every external call returns an
empty / falsy value, no event, resource or metrics checks, no emitters, and
the stop flag is never observed set. -/
def baseEnv : Env :=
  { now := 1000
    hostname := "host.internal"
    canonical_hostname := "host.canonical"
    uuid := "uuid-1"
    python_version := "2.7"
    version_str := "4.2.1"
    fresh_system_stats := [9]
    ec2_metadata := []
    socket_hostname := .returns "sock-host"
    socket_fqdn := .returns "sock-fqdn"
    unix :=
      { disk := .returns none, load := .returns [], memory := .returns false,
        iostats := .returns false, processes := .returns (), cpu := .returns none }
    win :=
      { disk := .returns [], memory := .returns [], cpu := .returns [],
        network := .returns [], iostats := .returns [], proc := .returns [] }
    ganglia := .returns false
    dogstream := .returns none
    ddforwarder := .returns false
    event_checks := []
    resources_checks := []
    metrics_checks := []
    agent_metrics := .returns []
    emitters := []
    persist_outcome := .returns ()
    cont := fun _ => true
    emit_duration_val := 3 }

/-- A freshly constructed non-windows collector (as after `__init__`). -/
def col0 : Collector := mkCollector cfg0 "linux" 600 900

theorem isReturns_ex {α : Type} {o : Outcome α} (h : isReturns o = true) :
    ∃ v, o = .returns v := by
  cases o with
  | raises m => exact absurd h (by simp [isReturns])
  | returns v => exact ⟨v, rfl⟩

theorem subset_addKey (ks : List String) (k : String) : ks ⊆ addKey ks k := by
  unfold addKey
  split
  · exact fun x hx => hx
  · exact fun x hx => List.mem_append.2 (Or.inl hx)

theorem subset_addKeys (ks new : List String) : ks ⊆ addKeys ks new := by
  induction new generalizing ks with
  | nil => exact fun x hx => hx
  | cons a rest ih =>
    exact fun x hx => ih (addKey ks a) (subset_addKey ks a hx)

theorem append_subset_append {l m m' : List String} (h : m ⊆ m') :
    l ++ m ⊆ l ++ m' := by
  intro x hx
  rcases List.mem_append.1 hx with h1 | h2
  · exact List.mem_append.2 (Or.inl h1)
  · exact List.mem_append.2 (Or.inr (h h2))

/-- Growing only `extraKeys` can only grow the payload's key set. -/
theorem payloadKeys_mono_extra (p : Payload) (ks : List String)
    (h : p.extraKeys ⊆ ks) :
    payloadKeys p ⊆ payloadKeys { p with extraKeys := ks } :=
  append_subset_append h

theorem runCheckD_shape (p : Payload) (c : CheckD) :
    ∃ ms es, runCheckD p c = ({ p with metrics := ms, events := es }, statusOfCheckD c) := by
  cases hr : c.run_outcome with
  | raises m => exact ⟨p.metrics, p.events, by simp [runCheckD, hr]⟩
  | returns insts =>
    cases hm : c.metrics_outcome with
    | raises m => exact ⟨p.metrics, p.events, by simp [runCheckD, hr, hm]⟩
    | returns ms =>
      cases he : c.events_outcome with
      | raises m => exact ⟨p.metrics, p.events, by simp [runCheckD, hr, hm, he]⟩
      | returns es =>
        by_cases hne : es.isEmpty
        · exact ⟨p.metrics ++ ms, p.events, by simp [runCheckD, hr, hm, he, hne]⟩
        · exact ⟨p.metrics ++ ms, appendOrCreate p.events c.name es,
            by simp [runCheckD, hr, hm, he, hne]⟩

theorem checksDLoop_ok (cont : Nat → Bool) (cds : List CheckD) (k : Nat)
    (p : Payload) (acc : List CheckStatus)
    (h : ∀ j, k ≤ j → j < k + cds.length → cont j = true) :
    ∃ ms es, checksDLoop cont k cds p acc =
      some ({ p with metrics := ms, events := es },
            acc ++ cds.map statusOfCheckD, k + cds.length) := by
  induction cds generalizing k p acc with
  | nil => exact ⟨p.metrics, p.events, by simp [checksDLoop]⟩
  | cons c rest ih =>
    have hk : cont k = true := h k le_rfl (by simp)
    obtain ⟨ms1, es1, hrc⟩ := runCheckD_shape p c
    obtain ⟨ms, es, hrec⟩ := ih (k + 1) { p with metrics := ms1, events := es1 }
      (acc ++ [statusOfCheckD c])
      (fun j hj1 hj2 => h j (by omega) (by simp at hj2 ⊢; omega))
    refine ⟨ms, es, ?_⟩
    have hlen : (k + 1) + rest.length = k + (c :: rest).length := by simp; omega
    simp only [checksDLoop, hk, if_true, hrc]
    rw [hrec]
    simp [List.append_assoc, hlen]

theorem checksDLoop_none (cont : Nat → Bool) (cds : List CheckD) (k i : Nat)
    (p : Payload) (acc : List CheckStatus)
    (hik : k ≤ i) (hi : i < k + cds.length) (hci : cont i = false) :
    checksDLoop cont k cds p acc = none := by
  induction cds generalizing k p acc with
  | nil => simp at hi; omega
  | cons c rest ih =>
    cases hk : cont k with
    | false => simp [checksDLoop, hk]
    | true =>
      have hki : k ≠ i := by
        intro he
        rw [he, hci] at hk
        exact Bool.noConfusion hk
      simp only [checksDLoop, hk, if_true]
      exact ih (k + 1) _ _ (by omega) (by simp at hi ⊢; omega)

theorem initFailedLoop_ok (cont : Nat → Bool) (ifs : List (String × InitFailInfo))
    (k : Nat) (acc : List CheckStatus)
    (h : ∀ j, k ≤ j → j < k + ifs.length → cont j = true) :
    initFailedLoop cont k ifs acc =
      some (acc ++ ifs.map initFailStatus, k + ifs.length) := by
  induction ifs generalizing k acc with
  | nil => simp [initFailedLoop]
  | cons entry rest ih =>
    have hk : cont k = true := h k le_rfl (by simp)
    have hlen : (k + 1) + rest.length = k + (entry :: rest).length := by simp; omega
    simp only [initFailedLoop, hk, if_true]
    rw [ih (k + 1) (acc ++ [initFailStatus entry])
      (fun j hj1 hj2 => h j (by omega) (by simp at hj2 ⊢; omega))]
    simp [List.append_assoc, hlen]

theorem initFailedLoop_none (cont : Nat → Bool) (ifs : List (String × InitFailInfo))
    (k i : Nat) (acc : List CheckStatus)
    (hik : k ≤ i) (hi : i < k + ifs.length) (hci : cont i = false) :
    initFailedLoop cont k ifs acc = none := by
  induction ifs generalizing k acc with
  | nil => simp at hi; omega
  | cons entry rest ih =>
    cases hk : cont k with
    | false => simp [initFailedLoop, hk]
    | true =>
      have hki : k ≠ i := by
        intro he
        rw [he, hci] at hk
        exact Bool.noConfusion hk
      simp only [initFailedLoop, hk, if_true]
      exact ih (k + 1) _ (by omega) (by simp at hi ⊢; omega)

theorem emitLoop_ok (cont : Nat → Bool) (es : List Emitter) (k : Nat)
    (acc : List EmitterStatus) (inv : List String)
    (h : ∀ j, k ≤ j → j < k + es.length → cont j = true) :
    emitLoop cont k es acc inv =
      (acc ++ es.map emitterStatusOf, inv ++ es.map Emitter.name, k + es.length) := by
  induction es generalizing k acc inv with
  | nil => simp [emitLoop]
  | cons e rest ih =>
    have hk : cont k = true := h k le_rfl (by simp)
    have hlen : (k + 1) + rest.length = k + (e :: rest).length := by simp; omega
    simp only [emitLoop, hk, if_true]
    rw [ih (k + 1) (acc ++ [emitterStatusOf e]) (inv ++ [e.name])
      (fun j hj1 hj2 => h j (by omega) (by simp at hj2 ⊢; omega))]
    simp [List.append_assoc, hlen]

theorem emitLoop_stopped (cont : Nat → Bool) (es : List Emitter) (k : Nat)
    (acc : List EmitterStatus) (inv : List String) (h : cont k = false) :
    emitLoop cont k es acc inv = (acc, inv, k) := by
  cases es with
  | nil => rfl
  | cons e rest => simp [emitLoop, h]

theorem unixPhase_ok (u : UnixEnv) (p : Payload)
    (h1 : isReturns u.disk = true) (h2 : isReturns u.load = true)
    (h3 : isReturns u.memory = true) (h4 : isReturns u.iostats = true)
    (h5 : isReturns u.processes = true) (h6 : isReturns u.cpu = true) :
    ∃ ks, unixPhase u p = .returns { p with extraKeys := ks } ∧
      p.extraKeys ⊆ ks := by
  obtain ⟨du, hd⟩ := isReturns_ex h1
  obtain ⟨lk, hl⟩ := isReturns_ex h2
  obtain ⟨memOk, hm⟩ := isReturns_ex h3
  obtain ⟨ioOk, hi⟩ := isReturns_ex h4
  obtain ⟨pu, hp⟩ := isReturns_ex h5
  obtain ⟨cpu, hc⟩ := isReturns_ex h6
  exact ⟨addKeys p.extraKeys (unixAddedKeys du lk memOk ioOk cpu),
    by simp [unixPhase, hd, hl, hm, hi, hp, hc], subset_addKeys _ _⟩

theorem mergeDogstream_shape (dd : Option DogstreamData) (p : Payload) :
    ∃ es ks, mergeDogstream dd p = { p with events := es, extraKeys := ks } ∧
      p.extraKeys ⊆ ks := by
  cases dd with
  | none => exact ⟨p.events, p.extraKeys, rfl, fun x hx => hx⟩
  | some d =>
    by_cases he : d.dogstreamEvents.isEmpty
    · exact ⟨p.events, addKeys p.extraKeys d.otherKeys,
        by simp [mergeDogstream, he], subset_addKeys _ _⟩
    · exact ⟨appendOrCreate p.events "dogstream" d.dogstreamEvents,
        addKeys p.extraKeys d.otherKeys,
        by simp [mergeDogstream, he], subset_addKeys _ _⟩

theorem legacyPhase_ok (env : Env) (p : Payload)
    (h1 : isReturns env.ganglia = true) (h2 : isReturns env.dogstream = true)
    (h3 : isReturns env.ddforwarder = true) :
    ∃ es ks, legacyPhase env p = .returns { p with events := es, extraKeys := ks } ∧
      p.extraKeys ⊆ ks := by
  obtain ⟨g, hg⟩ := isReturns_ex h1
  obtain ⟨dd, hdd⟩ := isReturns_ex h2
  obtain ⟨f, hf⟩ := isReturns_ex h3
  have step1 : ∃ ks1, (if g then { p with extraKeys := addKey p.extraKeys "ganglia" } else p) =
      { p with extraKeys := ks1 } ∧ p.extraKeys ⊆ ks1 := by
    cases g with
    | false => exact ⟨p.extraKeys, rfl, fun x hx => hx⟩
    | true => exact ⟨addKey p.extraKeys "ganglia", rfl, subset_addKey _ _⟩
  obtain ⟨ks1, hks1, hsub1⟩ := step1
  obtain ⟨es2, ks2, hmd, hsub2⟩ := mergeDogstream_shape dd { p with extraKeys := ks1 }
  have step3 : ∃ ks3,
      (if f then
        { ({ p with events := es2, extraKeys := ks2 } : Payload) with
            extraKeys := addKey ({ p with events := es2, extraKeys := ks2 } : Payload).extraKeys "datadog" }
      else ({ p with events := es2, extraKeys := ks2 } : Payload)) =
      { p with events := es2, extraKeys := ks3 } ∧ ks2 ⊆ ks3 := by
    cases f with
    | false => exact ⟨ks2, rfl, fun x hx => hx⟩
    | true => exact ⟨addKey ks2 "datadog", rfl, subset_addKey _ _⟩
  obtain ⟨ks3, hks3, hsub3⟩ := step3
  refine ⟨es2, ks3, ?_, fun x hx => hsub3 (hsub2 (hsub1 hx))⟩
  simp only [legacyPhase, hg, hdd, hf, hks1, hmd]
  rw [← hks3]

theorem eventChecksPhase_ok (ecs : List EventCheck) (p : Payload)
    (h : ∀ ec ∈ ecs, isReturns ec.outcome = true) :
    ∃ es, eventChecksPhase ecs p = .returns { p with events := es } := by
  induction ecs generalizing p with
  | nil => exact ⟨p.events, rfl⟩
  | cons ec rest ih =>
    obtain ⟨v, hv⟩ := isReturns_ex (h ec (List.mem_cons_self ec rest))
    by_cases hne : v.isEmpty
    · obtain ⟨es, hes⟩ := ih p (fun e he => h e (List.mem_cons_of_mem _ he))
      exact ⟨es, by simp [eventChecksPhase, hv, hne, hes]⟩
    · obtain ⟨es, hes⟩ := ih { p with events := setA p.events ec.key v }
        (fun e he => h e (List.mem_cons_of_mem _ he))
      exact ⟨es, by simp [eventChecksPhase, hv, hne, hes]⟩

theorem resourcesLoop_ok (rcs : List ResourceCheck) (p : Payload) (b : Bool)
    (h : ∀ rc ∈ rcs, isReturns rc.check_outcome = true ∧ isReturns rc.pop_outcome = true) :
    ∃ rs, resourcesLoop rcs p b = .returns ({ p with resources := rs }, b || anySnaps rcs) := by
  induction rcs generalizing p b with
  | nil => exact ⟨p.resources, by simp [resourcesLoop, anySnaps]⟩
  | cons rc rest ih =>
    obtain ⟨hc, hpo⟩ := h rc (List.mem_cons_self rc rest)
    obtain ⟨u, hcu⟩ := isReturns_ex hc
    obtain ⟨snaps, hps⟩ := isReturns_ex hpo
    by_cases hne : snaps.isEmpty
    · obtain ⟨rs, hrs⟩ := ih p b (fun r hr => h r (List.mem_cons_of_mem _ hr))
      refine ⟨rs, ?_⟩
      simp [resourcesLoop, hcu, hps, hne, hrs, anySnaps]
    · obtain ⟨rs, hrs⟩ := ih
        { p with resources := setA p.resources rc.resource_key ⟨snaps, rc.format_version, rc.format_description⟩ }
        true (fun r hr => h r (List.mem_cons_of_mem _ hr))
      refine ⟨rs, ?_⟩
      simp [resourcesLoop, hcu, hps, hne, hrs, anySnaps]

theorem resourcesPhase_ok (cfg : AgentConfig) (rcs : List ResourceCheck) (p : Payload)
    (h : ∀ rc ∈ rcs, isReturns rc.check_outcome = true ∧ isReturns rc.pop_outcome = true) :
    ∃ rs, resourcesPhase cfg rcs p = .returns
      { p with
          resources := rs
          resources_meta :=
            if anySnaps rcs then some ⟨cfg.api_key, p.internalHostname⟩
            else p.resources_meta } := by
  obtain ⟨rs, hrs⟩ := resourcesLoop_ok rcs p false h
  refine ⟨rs, ?_⟩
  cases ha : anySnaps rcs with
  | false => simp [resourcesPhase, hrs, ha]
  | true => simp [resourcesPhase, hrs, ha]

/-- The payload as `_build_payload` returns it at the start of the cycle
whose `run_count` is `C.run_count + 1`. -/
def builtPayload (C : Collector) (env : Env) (se : Bool) : Payload :=
  (buildPayload { C with run_count := C.run_count + 1 } env se).1

/-- The collector state right after lines 127-135: run_count incremented,
`_build_payload` state effects applied, checksd sets stored when truthy. -/
def midState (C : Collector) (env : Env) (checksd : Option ChecksD) (se : Bool) : Collector :=
  applyChecksd (buildPayload { C with run_count := C.run_count + 1 } env se).2 checksd

theorem buildPayload_state (C : Collector) (env : Env) (se : Bool) :
    ((buildPayload C env se).2).os = C.os ∧
    ((buildPayload C env se).2).agentConfig = C.agentConfig ∧
    ((buildPayload C env se).2).emit_duration = C.emit_duration ∧
    ((buildPayload C env se).2).initialized_checks_d = C.initialized_checks_d ∧
    ((buildPayload C env se).2).init_failed_checks_d = C.init_failed_checks_d ∧
    ((buildPayload C env se).2).run_count = C.run_count := by
  unfold buildPayload
  split_ifs <;> simp

theorem buildPayload_payload_core (C : Collector) (env : Env) (se : Bool) :
    ((buildPayload C env se).1).resources_meta = none ∧
    ((buildPayload C env se).1).internalHostname = env.hostname ∧
    ((buildPayload C env se).1).resources = [] := by
  unfold buildPayload basePayload
  split_ifs <;> simp

theorem applyChecksd_core (C : Collector) (cd : Option ChecksD) :
    (applyChecksd C cd).os = C.os ∧
    (applyChecksd C cd).agentConfig = C.agentConfig ∧
    (applyChecksd C cd).metadata_cache = C.metadata_cache ∧
    (applyChecksd C cd).emit_duration = C.emit_duration := by
  cases cd <;> simp [applyChecksd]

theorem metricsChecksPhase_ok (mcs : List (Outcome (List Metric))) (p : Payload)
    (h : ∀ mc ∈ mcs, isReturns mc = true) :
    ∃ ms, metricsChecksPhase mcs p = .returns { p with metrics := ms } := by
  induction mcs generalizing p with
  | nil => exact ⟨p.metrics, rfl⟩
  | cons mc rest ih =>
    obtain ⟨v, hv⟩ := isReturns_ex (h mc (List.mem_cons_self mc rest))
    by_cases hne : v.isEmpty
    · obtain ⟨ms, hms⟩ := ih p (fun m hm => h m (List.mem_cons_of_mem _ hm))
      exact ⟨ms, by simp [metricsChecksPhase, hv, hne, hms]⟩
    · obtain ⟨ms, hms⟩ := ih { p with metrics := p.metrics ++ v }
        (fun m hm => h m (List.mem_cons_of_mem _ hm))
      exact ⟨ms, by simp [metricsChecksPhase, hv, hne, hms]⟩

/-- Master description of a full non-windows cycle in which every unprotected
external call returns normally and the stop flag is never observed set:
`run()` completes, produces exactly one CheckStatus per checks.d check (in
order) followed by one per init-failed check, one EmitterStatus per emitter
in order, reaches persistence, and the final payload's `resources['meta']`
entry is governed by `anySnaps`; the payload's key set only grew since
`_build_payload`. -/
theorem run_linux_ok (C : Collector) (env : Env) (checksd : Option ChecksD) (se : Bool)
    (hos : ¬ C.os = "windows") (henv : EnvOkUnix env)
    (hcont : ∀ i, env.cont i = true) :
    ∃ pf,
      C.run env checksd se =
        ({ midState C env checksd se with emit_duration := some env.emit_duration_val },
          .completed
            { payload := pf
              check_statuses :=
                (midState C env checksd se).initialized_checks_d.map statusOfCheckD
                  ++ (midState C env checksd se).init_failed_checks_d.map initFailStatus
              emitter_statuses := env.emitters.map emitterStatusOf
              emitted := env.emitters.map Emitter.name
              persist_called := true
              persist_ok := isReturns env.persist_outcome
              persisted_metadata := (midState C env checksd se).metadata_cache }) ∧
      pf.resources_meta =
        (if anySnaps env.resources_checks then
          some ⟨C.agentConfig.api_key, env.hostname⟩
        else none) ∧
      payloadKeys (builtPayload C env se) ⊆ payloadKeys pf := by
  obtain ⟨⟨hg, hdog, hddf, hec, hmc, ham⟩, hd, hl, hm, hio2, hpr, hcpu, hrc⟩ := henv
  obtain ⟨ams, hams⟩ := isReturns_ex ham
  simp only [midState, builtPayload, Collector.run]
  set Cb : Collector :=
    applyChecksd (buildPayload { C with run_count := C.run_count + 1 } env se).2 checksd
    with hCbdef
  set p0 : Payload := (buildPayload { C with run_count := C.run_count + 1 } env se).1
    with hp0def
  have hosCb : ¬ Cb.os = "windows" := by
    rw [hCbdef, (applyChecksd_core _ checksd).1,
      (buildPayload_state { C with run_count := C.run_count + 1 } env se).1]
    exact hos
  have hagent : Cb.agentConfig = C.agentConfig := by
    rw [hCbdef, (applyChecksd_core _ checksd).2.1,
      (buildPayload_state { C with run_count := C.run_count + 1 } env se).2.1]
  have hcore := buildPayload_payload_core { C with run_count := C.run_count + 1 } env se
  rw [← hp0def] at hcore
  obtain ⟨hrm0, hih0, -⟩ := hcore
  obtain ⟨ks1, hsys, hsub1⟩ := unixPhase_ok env.unix p0 hd hl hm hio2 hpr hcpu
  set p1 : Payload := { p0 with extraKeys := ks1 } with hp1
  obtain ⟨es2, ks2, hleg, hsub2⟩ := legacyPhase_ok env p1 hg hdog hddf
  set p2 : Payload := { p1 with events := es2, extraKeys := ks2 } with hp2
  obtain ⟨es3, hev⟩ := eventChecksPhase_ok env.event_checks p2 hec
  set p3 : Payload := { p2 with events := es3 } with hp3
  obtain ⟨rs4, hres⟩ := resourcesPhase_ok Cb.agentConfig env.resources_checks p3 hrc
  set p4 : Payload := { p3 with resources := rs4, resources_meta := if anySnaps env.resources_checks then some ⟨Cb.agentConfig.api_key, p3.internalHostname⟩ else p3.resources_meta } with hp4
  obtain ⟨ms5, hmcs⟩ := metricsChecksPhase_ok env.metrics_checks p4 hmc
  set p5 : Payload := { p4 with metrics := ms5 } with hp5
  obtain ⟨ms6, es6, hcd⟩ := checksDLoop_ok env.cont Cb.initialized_checks_d 0 p5 []
    (fun j _ _ => hcont j)
  set p6 : Payload := { p5 with metrics := ms6, events := es6 } with hp6
  have hif := initFailedLoop_ok env.cont Cb.init_failed_checks_d
    (0 + Cb.initialized_checks_d.length)
    ([] ++ Cb.initialized_checks_d.map statusOfCheckD) (fun j _ _ => hcont j)
  have hemit := emitLoop_ok env.cont env.emitters
    (0 + Cb.initialized_checks_d.length + Cb.init_failed_checks_d.length) [] []
    (fun j _ _ => hcont j)
  refine ⟨{ p6 with metrics := p6.metrics ++ ams }, ?_, ?_, ?_⟩
  · simp only [if_neg hosCb, hsys]
    simp only [hleg]
    simp only [hev]
    simp only [hres]
    simp only [hmcs]
    simp only [hcd]
    simp only [hif]
    simp only [hams]
    simp only [hemit]
    simp [List.nil_append]
  · simp only [hp6, hp5, hp4, hp3, hp2, hp1, hagent, hih0, hrm0]
  · have hsub2' : ks1 ⊆ ks2 := by
      have := hsub2
      rw [hp1] at this
      exact this
    simp only [hp6, hp5, hp4, hp3, hp2, hp1, payloadKeys]
    exact append_subset_append (List.Subset.trans hsub1 hsub2')

/-- On the windows branch the whole system-check batch sits inside one
try/except (`winPhase` is total), so a raising Win32 system check cannot
abort the cycle: with the shared unprotected calls returning normally and no
stop observed, `run()` completes whatever the six Win32 check outcomes are. -/
theorem run_windows_completes (C : Collector) (env : Env) (checksd : Option ChecksD)
    (se : Bool) (hos : C.os = "windows") (henv : EnvOkCommon env)
    (hcont : ∀ i, env.cont i = true) :
    isCompleted (C.run env checksd se).2 = true := by
  obtain ⟨hg, hdog, hddf, hec, hmc, ham⟩ := henv
  obtain ⟨ams, hams⟩ := isReturns_ex ham
  simp only [Collector.run]
  set Cb : Collector :=
    applyChecksd (buildPayload { C with run_count := C.run_count + 1 } env se).2 checksd
    with hCbdef
  set p0 : Payload := (buildPayload { C with run_count := C.run_count + 1 } env se).1
    with hp0def
  have hosCb : Cb.os = "windows" := by
    rw [hCbdef, (applyChecksd_core _ checksd).1,
      (buildPayload_state { C with run_count := C.run_count + 1 } env se).1]
    exact hos
  set p1 : Payload := winPhase env.win p0 with hp1
  obtain ⟨es2, ks2, hleg, hsub2⟩ := legacyPhase_ok env p1 hg hdog hddf
  set p2 : Payload := { p1 with events := es2, extraKeys := ks2 } with hp2
  obtain ⟨es3, hev⟩ := eventChecksPhase_ok env.event_checks p2 hec
  set p3 : Payload := { p2 with events := es3 } with hp3
  obtain ⟨ms5, hmcs⟩ := metricsChecksPhase_ok env.metrics_checks p3 hmc
  set p5 : Payload := { p3 with metrics := ms5 } with hp5
  obtain ⟨ms6, es6, hcd⟩ := checksDLoop_ok env.cont Cb.initialized_checks_d 0 p5 []
    (fun j _ _ => hcont j)
  have hif := initFailedLoop_ok env.cont Cb.init_failed_checks_d
    (0 + Cb.initialized_checks_d.length)
    ([] ++ Cb.initialized_checks_d.map statusOfCheckD) (fun j _ _ => hcont j)
  have hemit := emitLoop_ok env.cont env.emitters
    (0 + Cb.initialized_checks_d.length + Cb.init_failed_checks_d.length) [] []
    (fun j _ _ => hcont j)
  simp only [if_pos hosCb, hleg]
  simp only [hev]
  simp only [hmcs]
  simp only [hcd]
  simp only [hif]
  simp only [hams]
  simp only [hemit]
  simp [isCompleted]

/-- If the stop flag is first observed clear and then observed set at
checkpoint `i` while the cycle is still inside the checks.d or
init-failed-check loops, `run()` returns `.stopped`: the early silent
return of lines 249-250 / 280-281 (no emission, no persistence). -/
theorem run_linux_stopped (C : Collector) (env : Env) (checksd : Option ChecksD)
    (se : Bool) (hos : ¬ C.os = "windows") (henv : EnvOkUnix env) (i : Nat)
    (hi : i < (midState C env checksd se).initialized_checks_d.length +
          (midState C env checksd se).init_failed_checks_d.length)
    (hci : env.cont i = false)
    (hbefore : ∀ j, j < i → env.cont j = true) :
    (C.run env checksd se).2 = .stopped := by
  obtain ⟨⟨hg, hdog, hddf, hec, hmc, ham⟩, hd, hl, hm, hio2, hpr, hcpu, hrc⟩ := henv
  simp only [midState] at hi
  simp only [Collector.run]
  set Cb : Collector :=
    applyChecksd (buildPayload { C with run_count := C.run_count + 1 } env se).2 checksd
    with hCbdef
  set p0 : Payload := (buildPayload { C with run_count := C.run_count + 1 } env se).1
    with hp0def
  have hosCb : ¬ Cb.os = "windows" := by
    rw [hCbdef, (applyChecksd_core _ checksd).1,
      (buildPayload_state { C with run_count := C.run_count + 1 } env se).1]
    exact hos
  obtain ⟨ks1, hsys, hsub1⟩ := unixPhase_ok env.unix p0 hd hl hm hio2 hpr hcpu
  set p1 : Payload := { p0 with extraKeys := ks1 } with hp1
  obtain ⟨es2, ks2, hleg, hsub2⟩ := legacyPhase_ok env p1 hg hdog hddf
  set p2 : Payload := { p1 with events := es2, extraKeys := ks2 } with hp2
  obtain ⟨es3, hev⟩ := eventChecksPhase_ok env.event_checks p2 hec
  set p3 : Payload := { p2 with events := es3 } with hp3
  obtain ⟨rs4, hres⟩ := resourcesPhase_ok Cb.agentConfig env.resources_checks p3 hrc
  set p4 : Payload := { p3 with resources := rs4, resources_meta := if anySnaps env.resources_checks then some ⟨Cb.agentConfig.api_key, p3.internalHostname⟩ else p3.resources_meta } with hp4
  obtain ⟨ms5, hmcs⟩ := metricsChecksPhase_ok env.metrics_checks p4 hmc
  set p5 : Payload := { p4 with metrics := ms5 } with hp5
  simp only [if_neg hosCb, hsys]
  simp only [hleg]
  simp only [hev]
  simp only [hres]
  simp only [hmcs]
  by_cases hcase : i < Cb.initialized_checks_d.length
  · rw [checksDLoop_none env.cont Cb.initialized_checks_d 0 i p5 []
      (Nat.zero_le i) (by omega) hci]
  · obtain ⟨ms6, es6, hcd⟩ := checksDLoop_ok env.cont Cb.initialized_checks_d 0 p5 []
      (fun j hj1 hj2 => hbefore j (by simp at hj2; omega))
    simp only [hcd]
    rw [initFailedLoop_none env.cont Cb.init_failed_checks_d
      (0 + Cb.initialized_checks_d.length) i
      ([] ++ Cb.initialized_checks_d.map statusOfCheckD) (by omega) (by omega) hci]

/-- If the stop flag is observed clear through the whole checks.d and
init-failed loops but set at the first emitter checkpoint, `_emit` returns
immediately (no emitter invoked, no EmitterStatus) — yet `run()` still goes
on to persist the collection status (line 306). -/
theorem run_linux_stop_at_emit (C : Collector) (env : Env) (checksd : Option ChecksD)
    (se : Bool) (hos : ¬ C.os = "windows") (henv : EnvOkUnix env)
    (hb : ∀ j, j < (midState C env checksd se).initialized_checks_d.length +
          (midState C env checksd se).init_failed_checks_d.length → env.cont j = true)
    (hstop : env.cont ((midState C env checksd se).initialized_checks_d.length +
          (midState C env checksd se).init_failed_checks_d.length) = false) :
    runEmitted (C.run env checksd se).2 = some [] ∧
    runEmitterStatuses (C.run env checksd se).2 = some [] ∧
    runPersistCalled (C.run env checksd se).2 = true := by
  obtain ⟨⟨hg, hdog, hddf, hec, hmc, ham⟩, hd, hl, hm, hio2, hpr, hcpu, hrc⟩ := henv
  obtain ⟨ams, hams⟩ := isReturns_ex ham
  simp only [midState] at hb hstop
  simp only [Collector.run]
  set Cb : Collector :=
    applyChecksd (buildPayload { C with run_count := C.run_count + 1 } env se).2 checksd
    with hCbdef
  set p0 : Payload := (buildPayload { C with run_count := C.run_count + 1 } env se).1
    with hp0def
  have hosCb : ¬ Cb.os = "windows" := by
    rw [hCbdef, (applyChecksd_core _ checksd).1,
      (buildPayload_state { C with run_count := C.run_count + 1 } env se).1]
    exact hos
  obtain ⟨ks1, hsys, hsub1⟩ := unixPhase_ok env.unix p0 hd hl hm hio2 hpr hcpu
  set p1 : Payload := { p0 with extraKeys := ks1 } with hp1
  obtain ⟨es2, ks2, hleg, hsub2⟩ := legacyPhase_ok env p1 hg hdog hddf
  set p2 : Payload := { p1 with events := es2, extraKeys := ks2 } with hp2
  obtain ⟨es3, hev⟩ := eventChecksPhase_ok env.event_checks p2 hec
  set p3 : Payload := { p2 with events := es3 } with hp3
  obtain ⟨rs4, hres⟩ := resourcesPhase_ok Cb.agentConfig env.resources_checks p3 hrc
  set p4 : Payload := { p3 with resources := rs4, resources_meta := if anySnaps env.resources_checks then some ⟨Cb.agentConfig.api_key, p3.internalHostname⟩ else p3.resources_meta } with hp4
  obtain ⟨ms5, hmcs⟩ := metricsChecksPhase_ok env.metrics_checks p4 hmc
  set p5 : Payload := { p4 with metrics := ms5 } with hp5
  obtain ⟨ms6, es6, hcd⟩ := checksDLoop_ok env.cont Cb.initialized_checks_d 0 p5 []
    (fun j hj1 hj2 => hb j (by simp at hj2; omega))
  set p6 : Payload := { p5 with metrics := ms6, events := es6 } with hp6
  have hif := initFailedLoop_ok env.cont Cb.init_failed_checks_d
    (0 + Cb.initialized_checks_d.length)
    ([] ++ Cb.initialized_checks_d.map statusOfCheckD)
    (fun j hj1 hj2 => hb j (by omega))
  have hstop' : env.cont (0 + Cb.initialized_checks_d.length +
      Cb.init_failed_checks_d.length) = false := by
    rw [Nat.zero_add]
    exact hstop
  have hemit := emitLoop_stopped env.cont env.emitters
    (0 + Cb.initialized_checks_d.length + Cb.init_failed_checks_d.length) [] [] hstop'
  simp only [if_neg hosCb, hsys]
  simp only [hleg]
  simp only [hev]
  simp only [hres]
  simp only [hmcs]
  simp only [hcd]
  simp only [hif]
  simp only [hams]
  simp only [hemit]
  simp [runEmitted, runEmitterStatuses, runPersistCalled]

theorem payloadKeys_events_mem (p : Payload) : "events" ∈ payloadKeys p := by
  simp [payloadKeys, payloadBaseKeys]

theorem payloadKeys_metrics_mem (p : Payload) : "metrics" ∈ payloadKeys p := by
  simp [payloadKeys, payloadBaseKeys]

/-- The Win32 batch only appends metrics, so it never changes the key set. -/
theorem winPhase_keys (w : WinEnv) (p : Payload) :
    payloadKeys (winPhase w p) = payloadKeys p := by
  unfold winPhase
  cases w.disk with
  | raises m => rfl
  | returns m1 =>
    cases w.memory with
    | raises m => rfl
    | returns m2 =>
      cases w.cpu with
      | raises m => rfl
      | returns m3 =>
        cases w.network with
        | raises m => rfl
        | returns m4 =>
          cases w.iostats with
          | raises m => rfl
          | returns m5 =>
            cases w.proc with
            | raises m => rfl
            | returns m6 => rfl

theorem unixPhase_returns_keys (u : UnixEnv) (p q : Payload)
    (h : unixPhase u p = .returns q) : payloadKeys p ⊆ payloadKeys q := by
  unfold unixPhase at h
  cases h1 : u.disk with
  | raises m => rw [h1] at h; exact Outcome.noConfusion h
  | returns du =>
  rw [h1] at h
  cases h2 : u.load with
  | raises m => rw [h2] at h; exact Outcome.noConfusion h
  | returns lk =>
  rw [h2] at h
  cases h3 : u.memory with
  | raises m => rw [h3] at h; exact Outcome.noConfusion h
  | returns memOk =>
  rw [h3] at h
  cases h4 : u.iostats with
  | raises m => rw [h4] at h; exact Outcome.noConfusion h
  | returns ioOk =>
  rw [h4] at h
  cases h5 : u.processes with
  | raises m => rw [h5] at h; exact Outcome.noConfusion h
  | returns pu =>
  rw [h5] at h
  cases h6 : u.cpu with
  | raises m => rw [h6] at h; exact Outcome.noConfusion h
  | returns cpu =>
  rw [h6] at h
  injection h with h
  subst h
  exact payloadKeys_mono_extra p _ (subset_addKeys _ _)

theorem legacyPhase_returns_cond (env : Env) (p q : Payload)
    (h : legacyPhase env p = .returns q) :
    isReturns env.ganglia = true ∧ isReturns env.dogstream = true ∧
    isReturns env.ddforwarder = true := by
  unfold legacyPhase at h
  cases hg : env.ganglia with
  | raises m => rw [hg] at h; exact Outcome.noConfusion h
  | returns g =>
    rw [hg] at h
    cases hdd : env.dogstream with
    | raises m => rw [hdd] at h; exact Outcome.noConfusion h
    | returns dd =>
      rw [hdd] at h
      cases hf : env.ddforwarder with
      | raises m => rw [hf] at h; exact Outcome.noConfusion h
      | returns f => simp [isReturns, hg, hdd, hf]

theorem legacyPhase_returns_keys (env : Env) (p q : Payload)
    (h : legacyPhase env p = .returns q) : payloadKeys p ⊆ payloadKeys q := by
  obtain ⟨h1, h2, h3⟩ := legacyPhase_returns_cond env p q h
  obtain ⟨es, ks, hok, hsub⟩ := legacyPhase_ok env p h1 h2 h3
  rw [hok] at h
  injection h with h
  subst h
  exact append_subset_append hsub

theorem eventChecksPhase_returns_keys (ecs : List EventCheck) (p q : Payload)
    (h : eventChecksPhase ecs p = .returns q) : payloadKeys q = payloadKeys p := by
  induction ecs generalizing p with
  | nil =>
    injection h with h
    subst h
    rfl
  | cons ec rest ih =>
    unfold eventChecksPhase at h
    cases ho : ec.outcome with
    | raises m => rw [ho] at h; exact Outcome.noConfusion h
    | returns es =>
      rw [ho] at h
      by_cases hne : es.isEmpty
      · simp only [hne, Bool.not_true, Bool.false_eq_true, if_false] at h
        exact ih p h
      · simp only [Bool.not_eq_true', eq_false_of_ne_true hne] at h
        exact ih { p with events := setA p.events ec.key es } h

theorem runCheckD_keys (p : Payload) (c : CheckD) :
    payloadKeys (runCheckD p c).1 = payloadKeys p := by
  obtain ⟨ms, es, hsh⟩ := runCheckD_shape p c
  rw [hsh]
  rfl

theorem checksDLoop_some_keys (cont : Nat → Bool) (cds : List CheckD) (k : Nat)
    (p : Payload) (acc : List CheckStatus) (q : Payload) (sts : List CheckStatus)
    (k' : Nat) (h : checksDLoop cont k cds p acc = some (q, sts, k')) :
    payloadKeys q = payloadKeys p := by
  induction cds generalizing k p acc with
  | nil =>
    simp only [checksDLoop, Option.some.injEq, Prod.mk.injEq] at h
    rw [← h.1]
  | cons c rest ih =>
    unfold checksDLoop at h
    cases hk : cont k with
    | false => rw [hk] at h; simp at h
    | true =>
      rw [hk] at h
      simp only [if_true] at h
      rw [ih (k + 1) (runCheckD p c).1 (acc ++ [(runCheckD p c).2]) h]
      exact runCheckD_keys p c

theorem resourcesLoop_returns_keys (rcs : List ResourceCheck) (p : Payload) (b : Bool)
    (q : Payload) (b' : Bool) (h : resourcesLoop rcs p b = .returns (q, b')) :
    payloadKeys q = payloadKeys p := by
  induction rcs generalizing p b with
  | nil =>
    unfold resourcesLoop at h
    injection h with h
    injection h with hq hb
    rw [hq]
  | cons rc rest ih =>
    unfold resourcesLoop at h
    cases h1 : rc.check_outcome with
    | raises m => rw [h1] at h; exact Outcome.noConfusion h
    | returns u =>
      rw [h1] at h
      cases h2 : rc.pop_outcome with
      | raises m => rw [h2] at h; exact Outcome.noConfusion h
      | returns snaps =>
        rw [h2] at h
        by_cases hne : snaps.isEmpty
        · simp only [hne, Bool.not_true, Bool.false_eq_true, if_false] at h
          exact ih p b h
        · simp only [Bool.not_eq_true', eq_false_of_ne_true hne, if_true] at h
          exact ih { p with resources := setA p.resources rc.resource_key ⟨snaps, rc.format_version, rc.format_description⟩ } true h

theorem resourcesPhase_returns_keys (cfg : AgentConfig) (rcs : List ResourceCheck)
    (p q : Payload) (h : resourcesPhase cfg rcs p = .returns q) :
    payloadKeys q = payloadKeys p := by
  unfold resourcesPhase at h
  cases hl : resourcesLoop rcs p false with
  | raises m => rw [hl] at h; exact Outcome.noConfusion h
  | returns pr =>
    obtain ⟨q0, b⟩ := pr
    rw [hl] at h
    injection h with h
    subst h
    have hq0 := resourcesLoop_returns_keys rcs p false q0 b hl
    cases b with
    | false => simpa using hq0
    | true => simpa using hq0

theorem metricsChecksPhase_returns_keys (mcs : List (Outcome (List Metric)))
    (p q : Payload) (h : metricsChecksPhase mcs p = .returns q) :
    payloadKeys q = payloadKeys p := by
  induction mcs generalizing p with
  | nil =>
    injection h with h
    subst h
    rfl
  | cons mc rest ih =>
    unfold metricsChecksPhase at h
    cases ho : mc with
    | raises m => rw [ho] at h; exact Outcome.noConfusion h
    | returns ms =>
      rw [ho] at h
      by_cases hne : ms.isEmpty
      · simp only [hne, Bool.not_true, Bool.false_eq_true, if_false] at h
        exact ih p h
      · simp only [Bool.not_eq_true', eq_false_of_ne_true hne] at h
        exact ih { p with metrics := p.metrics ++ ms } h

/-- On the non-windows branch the system-check section has no try/except:
whenever `unixPhase` raises, the exception escapes `run()` unchanged. -/
theorem run_linux_system_raise (C : Collector) (env : Env) (checksd : Option ChecksD)
    (se : Bool) (hos : ¬ C.os = "windows") (msg : String)
    (hsys : unixPhase env.unix (builtPayload C env se) = .raises msg) :
    (C.run env checksd se).2 = .raised msg := by
  simp only [builtPayload] at hsys
  simp only [Collector.run]
  set Cb : Collector :=
    applyChecksd (buildPayload { C with run_count := C.run_count + 1 } env se).2 checksd
    with hCbdef
  set p0 : Payload := (buildPayload { C with run_count := C.run_count + 1 } env se).1
    with hp0def
  have hosCb : ¬ Cb.os = "windows" := by
    rw [hCbdef, (applyChecksd_core _ checksd).1,
      (buildPayload_state { C with run_count := C.run_count + 1 } env se).1]
    exact hos
  simp only [if_neg hosCb, hsys]

/-- For ANY per-cycle behaviour: if the cycle completed (reached emission and
persistence), the final payload's key set contains everything the payload
builder created — sections are only ever added during a cycle. -/
theorem run_completed_keys (C : Collector) (env : Env) (checksd : Option ChecksD)
    (se : Bool) (r : CycleReport) (h : (C.run env checksd se).2 = .completed r) :
    payloadKeys (builtPayload C env se) ⊆ payloadKeys r.payload := by
  simp only [builtPayload]
  simp only [Collector.run] at h
  set Cb : Collector :=
    applyChecksd (buildPayload { C with run_count := C.run_count + 1 } env se).2 checksd
    with hCbdef
  set p0 : Payload := (buildPayload { C with run_count := C.run_count + 1 } env se).1
    with hp0def
  cases hsys : (if Cb.os = "windows" then Outcome.returns (winPhase env.win p0)
      else unixPhase env.unix p0) with
  | raises m => rw [hsys] at h; exact RunOutcome.noConfusion h
  | returns p1 =>
  simp only [hsys] at h
  have s1 : payloadKeys p0 ⊆ payloadKeys p1 := by
    by_cases hw : Cb.os = "windows"
    · rw [if_pos hw] at hsys
      injection hsys with hsys
      rw [← hsys, winPhase_keys]
      exact List.Subset.refl _
    · rw [if_neg hw] at hsys
      exact unixPhase_returns_keys env.unix p0 p1 hsys
  cases hleg : legacyPhase env p1 with
  | raises m => rw [hleg] at h; exact RunOutcome.noConfusion h
  | returns p2 =>
  simp only [hleg] at h
  have s2 := legacyPhase_returns_keys env p1 p2 hleg
  cases hev : eventChecksPhase env.event_checks p2 with
  | raises m => rw [hev] at h; exact RunOutcome.noConfusion h
  | returns p3 =>
  simp only [hev] at h
  have s3 := eventChecksPhase_returns_keys env.event_checks p2 p3 hev
  cases hres : (if Cb.os = "windows" then Outcome.returns p3
      else resourcesPhase Cb.agentConfig env.resources_checks p3) with
  | raises m => rw [hres] at h; exact RunOutcome.noConfusion h
  | returns p4 =>
  simp only [hres] at h
  have s4 : payloadKeys p4 = payloadKeys p3 := by
    by_cases hw : Cb.os = "windows"
    · rw [if_pos hw] at hres
      injection hres with hres
      rw [hres]
    · rw [if_neg hw] at hres
      exact resourcesPhase_returns_keys Cb.agentConfig env.resources_checks p3 p4 hres
  cases hmcs : metricsChecksPhase env.metrics_checks p4 with
  | raises m => rw [hmcs] at h; exact RunOutcome.noConfusion h
  | returns p5 =>
  simp only [hmcs] at h
  have s5 := metricsChecksPhase_returns_keys env.metrics_checks p4 p5 hmcs
  cases hcd : checksDLoop env.cont 0 Cb.initialized_checks_d p5 [] with
  | none => rw [hcd] at h; exact RunOutcome.noConfusion h
  | some r6 =>
  obtain ⟨p6, sts6, k6⟩ := r6
  simp only [hcd] at h
  have s6 := checksDLoop_some_keys env.cont Cb.initialized_checks_d 0 p5 [] p6 sts6 k6 hcd
  cases hif : initFailedLoop env.cont k6 Cb.init_failed_checks_d sts6 with
  | none => rw [hif] at h; exact RunOutcome.noConfusion h
  | some r7 =>
  simp only [hif] at h
  cases ham : env.agent_metrics with
  | raises m => rw [ham] at h; exact RunOutcome.noConfusion h
  | returns ams =>
  simp only [ham] at h
  injection h with h
  subst h
  intro x hx
  have h1 := s2 (s1 hx)
  rw [← s3] at h1
  rw [← s4] at h1
  rw [← s5] at h1
  rw [← s6] at h1
  exact h1

theorem lookupA_setA {α : Type} (m : List (String × α)) (k : String) (v : α) :
    lookupA (setA m k v) k = some v := by
  induction m with
  | nil => simp [setA, lookupA]
  | cons kv rest ih =>
    obtain ⟨k', v'⟩ := kv
    by_cases h : k' = k
    · simp [setA, lookupA, h]
    · simp [setA, lookupA, h, ih]

theorem lookupA_setA_ne {α : Type} (m : List (String × α)) (k k' : String) (v : α)
    (h : ¬ k = k') : lookupA (setA m k v) k' = lookupA m k' := by
  induction m with
  | nil => simp [setA, lookupA, h]
  | cons kv rest ih =>
    obtain ⟨k0, v0⟩ := kv
    by_cases h0 : k0 = k
    · subst h0
      simp [setA, lookupA, h]
    · simp [setA, lookupA, h0, ih]

/-- The append-or-create merge (lines 201-204 / 266-269): the sequence stored
at `k` afterwards is the old sequence (empty when the key was absent)
followed by the new events — never an overwrite. -/
theorem lookupA_appendOrCreate (m : List (String × List Event)) (k : String)
    (es : List Event) :
    lookupA (appendOrCreate m k es) k = some ((lookupA m k).getD [] ++ es) := by
  unfold appendOrCreate
  cases h : lookupA m k with
  | none => simp [lookupA_setA, h]
  | some old => simp [lookupA_setA, h]

theorem lookupA_appendOrCreate_ne (m : List (String × List Event)) (k k' : String)
    (es : List Event) (h : ¬ k = k') :
    lookupA (appendOrCreate m k es) k' = lookupA m k' := by
  unfold appendOrCreate
  cases hl : lookupA m k with
  | none => simp [lookupA_setA_ne, h]
  | some old => simp [lookupA_setA_ne, h]

/-- A checks.d check whose three calls all return merges its (non-empty)
events with the append-or-create rule. -/
theorem runCheckD_events (p : Payload) (c : CheckD) (insts : List InstanceStatus)
    (ms : List Metric) (es : List Event)
    (h1 : c.run_outcome = .returns insts) (h2 : c.metrics_outcome = .returns ms)
    (h3 : c.events_outcome = .returns es) (hne : ¬ es.isEmpty = true) :
    ((runCheckD p c).1).events = appendOrCreate p.events c.name es := by
  simp [runCheckD, h1, h2, h3, hne]

/-- The truthy dogstream result merges its nested event list with the
append-or-create rule under the fixed `dogstream` source key. -/
theorem mergeDogstream_events (d : DogstreamData) (p : Payload)
    (hne : ¬ d.dogstreamEvents.isEmpty = true) :
    (mergeDogstream (some d) p).events =
      appendOrCreate p.events "dogstream" d.dogstreamEvents := by
  simp [mergeDogstream, hne]

/-- An event check stores a truthy result by plain dict ASSIGNMENT at
`events[check.key]` — any sequence already present under that key is
replaced, not appended to. -/
theorem eventChecksPhase_single (ec : EventCheck) (p : Payload) (es : List Event)
    (h : ec.outcome = .returns es) (hne : ¬ es.isEmpty = true) :
    eventChecksPhase [ec] p = .returns { p with events := setA p.events ec.key es } := by
  simp [eventChecksPhase, h, hne]

/-- C1 (amended): failure isolation in `run()` is NOT per-check for every
group.  (i) On a non-windows host an exception from the unprotected Unix
system-check section (e.g. the disk check) propagates out of `run()` and
aborts the cycle.  (ii) A checks.d-style check invocation is isolated
per-check: with the unprotected groups returning normally, the cycle
completes and produces one CheckStatus per checks.d / init-failed check
whatever their outcomes (raising checks included).  (iii) On windows the
system-check batch sits in a single try/except, so a raising Win32 system
check still lets the cycle complete. -/
theorem c1_failure_isolation (C : Collector) (env : Env) (checksd : Option ChecksD)
    (se : Bool) (msg : String) :
    (¬ C.os = "windows" → env.unix.disk = .raises msg →
      (C.run env checksd se).2 = .raised msg) ∧
    (¬ C.os = "windows" → EnvOkUnix env → (∀ i, env.cont i = true) →
      isCompleted (C.run env checksd se).2 = true ∧
      runStatuses (C.run env checksd se).2 =
        some ((midState C env checksd se).initialized_checks_d.map statusOfCheckD ++
          (midState C env checksd se).init_failed_checks_d.map initFailStatus)) ∧
    (C.os = "windows" → EnvOkCommon env → (∀ i, env.cont i = true) →
      isCompleted (C.run env checksd se).2 = true) := by
  refine ⟨?_, ?_, ?_⟩
  · intro hos hdisk
    exact run_linux_system_raise C env checksd se hos msg (by simp [unixPhase, hdisk])
  · intro hos henv hcont
    obtain ⟨pf, hrun, -, -⟩ := run_linux_ok C env checksd se hos henv hcont
    rw [hrun]
    exact ⟨rfl, rfl⟩
  · intro hosw henvc hcont
    exact run_windows_completes C env checksd se hosw henvc hcont

/-- C2 (confirmed): in a cycle where the unprotected groups return normally
and no stop is observed, `run()` produces exactly one CheckStatus per
checks.d check in iteration order (followed by the init-failed statuses),
and a checks.d check whose `run()` raises yields a CheckStatus with empty
instance results and `metric_count = event_count = 0`; every other check
still gets its own CheckStatus. -/
theorem c2_checksd_raise_zero_status (C : Collector) (env : Env) (cds : List CheckD)
    (ifs : List (String × InitFailInfo)) (se : Bool)
    (hos : ¬ C.os = "windows") (henv : EnvOkUnix env) (hcont : ∀ i, env.cont i = true)
    (c : CheckD) (msg : String) (hraise : c.run_outcome = .raises msg) :
    runStatuses (C.run env (some ⟨cds, ifs⟩) se).2 =
      some (cds.map statusOfCheckD ++ ifs.map initFailStatus) ∧
    statusOfCheckD c =
      { name := c.name, instance_statuses := some [], metric_count := some 0,
        event_count := some 0, init_failed_error := none,
        init_failed_traceback := none } := by
  obtain ⟨pf, hrun, -, -⟩ := run_linux_ok C env (some ⟨cds, ifs⟩) se hos henv hcont
  constructor
  · rw [hrun]
    simp [runStatuses, midState, applyChecksd]
  · simp [statusOfCheckD, hraise]

/-- C3 (amended): a stop observed at the start of a checks.d or
init-failed-check iteration makes `run()` return early and silently —
`.stopped`, with no emission and no status persistence; but a stop first
observed at the emitter checkpoint only truncates dispatch (no emitter is
invoked, no EmitterStatus produced) while `run()` still persists the
collection status for the cycle. -/
theorem c3_stop_behaviour (C : Collector) (env : Env) (checksd : Option ChecksD)
    (se : Bool) (i : Nat) (hos : ¬ C.os = "windows") (henv : EnvOkUnix env) :
    ((i < (midState C env checksd se).initialized_checks_d.length +
        (midState C env checksd se).init_failed_checks_d.length ∧
      env.cont i = false ∧ (∀ j, j < i → env.cont j = true)) →
      (C.run env checksd se).2 = .stopped) ∧
    (((∀ j, j < (midState C env checksd se).initialized_checks_d.length +
        (midState C env checksd se).init_failed_checks_d.length → env.cont j = true) ∧
      env.cont ((midState C env checksd se).initialized_checks_d.length +
        (midState C env checksd se).init_failed_checks_d.length) = false) →
      runEmitted (C.run env checksd se).2 = some [] ∧
      runEmitterStatuses (C.run env checksd se).2 = some [] ∧
      runPersistCalled (C.run env checksd se).2 = true) := by
  constructor
  · rintro ⟨hi, hci, hb⟩
    exact run_linux_stopped C env checksd se hos henv i hi hci hb
  · rintro ⟨hb, hstop⟩
    exact run_linux_stop_at_emit C env checksd se hos henv hb hstop

/-- C4 (amended): the append-or-create merge governs the log-stream bridge
events and checks.d check events — an existing source key keeps its earlier
records and the new ones are appended after them, a missing key is created.
Event-producing checks however ASSIGN `events[key]`, replacing any sequence
already stored under that key. -/
theorem c4_events_merge_rules (p : Payload) (c : CheckD) (d : DogstreamData)
    (ec : EventCheck) (insts : List InstanceStatus) (ms : List Metric)
    (es es' : List Event)
    (h1 : c.run_outcome = .returns insts) (h2 : c.metrics_outcome = .returns ms)
    (h3 : c.events_outcome = .returns es) (hne : ¬ es.isEmpty = true)
    (hde : ¬ d.dogstreamEvents.isEmpty = true)
    (hee : ec.outcome = .returns es') (hne' : ¬ es'.isEmpty = true) :
    lookupA ((runCheckD p c).1).events c.name =
      some ((lookupA p.events c.name).getD [] ++ es) ∧
    lookupA (mergeDogstream (some d) p).events "dogstream" =
      some ((lookupA p.events "dogstream").getD [] ++ d.dogstreamEvents) ∧
    eventChecksPhase [ec] p = .returns { p with events := setA p.events ec.key es' } ∧
    lookupA (setA p.events ec.key es') ec.key = some es' := by
  refine ⟨?_, ?_, ?_, ?_⟩
  · rw [runCheckD_events p c insts ms es h1 h2 h3 hne]
    exact lookupA_appendOrCreate p.events c.name es
  · rw [mergeDogstream_events d p hde]
    exact lookupA_appendOrCreate p.events "dogstream" d.dogstreamEvents
  · exact eventChecksPhase_single ec p es' hee hne'
  · exact lookupA_setA p.events ec.key es'

/-- C5 (confirmed): on a non-windows host, in a cycle where every unprotected
call returns and no stop is observed, the completed payload's
`resources['meta']` entry is present IFF at least one resource check popped
at least one snapshot, it is the single Option-valued meta slot (added at
most once, after the loop), and it carries the configured API key and the
cycle's internal hostname. -/
theorem c5_resources_meta (C : Collector) (env : Env) (checksd : Option ChecksD)
    (se : Bool) (hos : ¬ C.os = "windows") (henv : EnvOkUnix env)
    (hcont : ∀ i, env.cont i = true) :
    runResMeta (C.run env checksd se).2 =
      some (if anySnaps env.resources_checks then
        some ⟨C.agentConfig.api_key, env.hostname⟩ else none) := by
  obtain ⟨pf, hrun, hmeta, -⟩ := run_linux_ok C env checksd se hos henv hcont
  rw [hrun]
  simp [runResMeta, hmeta]

/-- C9 (confirmed): the payload built by `_build_payload` always carries the
`events` and `metrics` keys, and whenever a cycle completes, the payload
handed to the emitters still carries them — and in fact every key the
builder created: sections added during a cycle are never removed. -/
theorem c9_payload_key_invariants (C : Collector) (env : Env) (checksd : Option ChecksD)
    (se : Bool) (r : CycleReport) (h : (C.run env checksd se).2 = .completed r) :
    "events" ∈ payloadKeys (builtPayload C env se) ∧
    "metrics" ∈ payloadKeys (builtPayload C env se) ∧
    "events" ∈ payloadKeys r.payload ∧
    "metrics" ∈ payloadKeys r.payload ∧
    payloadKeys (builtPayload C env se) ⊆ payloadKeys r.payload :=
  ⟨payloadKeys_events_mem _, payloadKeys_metrics_mem _, payloadKeys_events_mem _,
   payloadKeys_metrics_mem _, run_completed_keys C env checksd se r h⟩

/-- C6 (amended): the payload builder recomputes host metadata exactly when
it is the first run OR the elapsed time since `metadata_start` is AT LEAST
(`>=`, not strictly greater than) the configured interval; a recompute
always takes fresh systemStats (a live `get_system_stats()` call, not the
config snapshot), stores the metadata in the cache and attaches the
configured tags — but the last-computed timestamp is reset to now only when
the interval condition fired on a non-first run: the `or` short-circuits,
so a first-run recompute leaves `metadata_start` at its previous value. -/
theorem c6_metadata_schedule (C : Collector) (env : Env) (se : Bool) :
    ((buildPayload C env se).1.meta.isSome = true ↔
      (isFirstRun C = true ∨ C.metadata_start + C.metadata_interval ≤ env.now)) ∧
    ((buildPayload C env se).1.meta.isSome = true →
      (buildPayload C env se).1.systemStats = some env.fresh_system_stats ∧
      (buildPayload C env se).1.meta = some (getMetadata C.agentConfig env) ∧
      (buildPayload C env se).2.metadata_cache = some (getMetadata C.agentConfig env) ∧
      (buildPayload C env se).1.tags = C.agentConfig.tags) ∧
    (isFirstRun C = true → (buildPayload C env se).2.metadata_start = C.metadata_start) ∧
    (isFirstRun C = false → C.metadata_start + C.metadata_interval ≤ env.now →
      (buildPayload C env se).2.metadata_start = env.now) ∧
    (isFirstRun C = false → ¬ C.metadata_start + C.metadata_interval ≤ env.now →
      (buildPayload C env se).1.meta = none ∧
      (buildPayload C env se).2.metadata_cache = C.metadata_cache ∧
      (buildPayload C env se).2.metadata_start = C.metadata_start) := by
  unfold buildPayload
  split_ifs with h1 h2 h3 <;> simp_all [basePayload]

/-- C7 (confirmed): on the first cycle (`run_count == 1`) the built payload
always carries the host-metadata section; when the startup event is
requested it also carries systemStats and the synthetic `events['System']`
record with event type `Agent Startup` and the running version string. -/
theorem c7_first_run_payload (C : Collector) (env : Env) (se : Bool)
    (h : C.run_count = 1) :
    (buildPayload C env se).1.meta.isSome = true ∧
    (se = true →
      lookupA (buildPayload C env se).1.events "System" =
        some [Event.startup C.agentConfig.api_key env.hostname env.now "Agent Startup"
          ("Version " ++ env.version_str)] ∧
      (buildPayload C env se).1.systemStats.isSome = true) := by
  have hfr : isFirstRun C = true := by simp [isFirstRun, h]
  unfold buildPayload
  rw [hfr]
  constructor
  · simp
  · intro hse
    subst hse
    simp [basePayload, startupEvent, lookupA, setA]

/-- C8 (confirmed): with the stop flag clear, the dispatcher attempts every
configured emitter in order and returns one EmitterStatus per attempted
emitter in attempt order; a raising emitter's status carries the failure
reason (and does not prevent later emitters), a non-raising emitter's status
carries none. -/
theorem c8_emitter_dispatch (cont : Nat → Bool) (emitters : List Emitter) (k : Nat)
    (hcont : ∀ i, cont i = true) (e : Emitter) (msg : String) :
    emitLoop cont k emitters [] [] =
      (emitters.map emitterStatusOf, emitters.map Emitter.name, k + emitters.length) ∧
    (e.outcome = .raises msg →
      emitterStatusOf e = { name := e.name, failure := some msg }) ∧
    (e.outcome = .returns () →
      emitterStatusOf e = { name := e.name, failure := none }) := by
  refine ⟨?_, ?_, ?_⟩
  · simpa using emitLoop_ok cont emitters k [] [] (fun j _ _ => hcont j)
  · intro h
    simp [emitterStatusOf, h]
  · intro h
    simp [emitterStatusOf, h]

/-- C10 (confirmed): a falsy `checksd` argument (`None`) leaves the stored
checks.d sets untouched: the sets from the most recent truthy call (empty on
a fresh collector, as `__init__` sets them to `[]`) are reused and still
produce one CheckStatus each. -/
theorem c10_falsy_checksd_reuse (C : Collector) (env : Env) (se : Bool)
    (hos : ¬ C.os = "windows") (henv : EnvOkUnix env) (hcont : ∀ i, env.cont i = true)
    (cfg : AgentConfig) (os_name : String) (itv t0 : Nat) :
    (C.run env none se).1.initialized_checks_d = C.initialized_checks_d ∧
    (C.run env none se).1.init_failed_checks_d = C.init_failed_checks_d ∧
    runStatuses (C.run env none se).2 =
      some (C.initialized_checks_d.map statusOfCheckD ++
            C.init_failed_checks_d.map initFailStatus) ∧
    (mkCollector cfg os_name itv t0).initialized_checks_d = [] ∧
    (mkCollector cfg os_name itv t0).init_failed_checks_d = [] := by
  obtain ⟨pf, hrun, -, -⟩ := run_linux_ok C env none se hos henv hcont
  have hmid1 : (midState C env none se).initialized_checks_d = C.initialized_checks_d := by
    simp [midState, applyChecksd]
    exact (buildPayload_state { C with run_count := C.run_count + 1 } env se).2.2.2.1
  have hmid2 : (midState C env none se).init_failed_checks_d = C.init_failed_checks_d := by
    simp [midState, applyChecksd]
    exact (buildPayload_state { C with run_count := C.run_count + 1 } env se).2.2.2.2.1
  refine ⟨?_, ?_, ?_, rfl, rfl⟩
  · rw [hrun]
    exact hmid1
  · rw [hrun]
    exact hmid2
  · rw [hrun]
    simp [runStatuses, hmid1, hmid2]

/-- A checks.d check whose `run()` raises. -/
def cdRaise : CheckD :=
  { name := "disk_extra"
    run_outcome := .raises "check boom"
    metrics_outcome := .returns []
    events_outcome := .returns [] }

/-- A checks.d check that succeeds with two metrics and one event. -/
def cdOk : CheckD :=
  { name := "good_check"
    run_outcome := .returns [1]
    metrics_outcome := .returns [5, 6]
    events_outcome := .returns [Event.ev 3] }

/-- An init-failed entry as supplied by the external loading phase. -/
def ifW : String × InitFailInfo := ("bad_plugin", ⟨"ImportError: x", "tb"⟩)

/-- Expected CheckStatus of `cdRaise`. -/
def stRaise : CheckStatus := ⟨"disk_extra", some [], some 0, some 0, none, none⟩

/-- Expected CheckStatus of `cdOk`. -/
def stOk : CheckStatus := ⟨"good_check", some [1], some 2, some 1, none, none⟩

/-- Expected CheckStatus of `ifW`. -/
def stInit : CheckStatus :=
  ⟨"bad_plugin", none, none, none, some "ImportError: x", some "tb"⟩

/-- Environment whose Unix disk check raises. -/
def envC1raise : Env :=
  { baseEnv with unix := { baseEnv.unix with disk := .raises "disk boom" } }

/-- A windows-branch collector. -/
def colWin : Collector := mkCollector cfg0 "windows" 600 900

/-- Environment whose Win32 disk check raises. -/
def envWinRaise : Env :=
  { baseEnv with win := { baseEnv.win with disk := .raises "win boom" } }

/-- Environment in which every checkpoint read observes the stop flag set. -/
def envStop : Env := { baseEnv with cont := fun _ => false }

/-- One emitter, stop flag observed set at every checkpoint: with no checks.d
work the first read happens right before the first emitter invocation. -/
def envC3emit : Env :=
  { baseEnv with
      emitters := [⟨"http_emitter", .returns ()⟩]
      cont := fun _ => false }

/-- Dogstream produces one event under `dogstream`, then an event check with
the same key produces another: the event check ASSIGNS, overwriting them. -/
def envC4 : Env :=
  { baseEnv with
      dogstream := .returns (some ⟨[Event.ev 1], []⟩)
      event_checks := [⟨"dogstream", .returns [Event.ev 2]⟩] }

/-- One resource check producing two snapshots with format_version 3. -/
def envC5 : Env :=
  { baseEnv with
      resources_checks := [⟨"processes", .returns (), .returns [11, 12], 3, none⟩] }

/-- Non-first cycle with elapsed time EXACTLY equal to the interval. -/
def colC6a : Collector :=
  { col0 with run_count := 6, metadata_start := 100, metadata_interval := 50 }

/-- Same wall clock, elapsed = 150 - 100 = 50 = interval. -/
def envC6a : Env := { baseEnv with now := 150 }

/-- First cycle (run_count already incremented to 1), elapsed (100) well
below the interval (600): recompute happens only because it is first run. -/
def colC6b : Collector := { col0 with run_count := 1 }

/-- The collector on its first cycle (run_count already incremented to 1). -/
def colFirst : Collector := { col0 with run_count := 1 }

/-- Three emitters, the middle one raising. -/
def emittersW : List Emitter :=
  [⟨"e1", .returns ()⟩, ⟨"e2", .raises "fail"⟩, ⟨"e3", .returns ()⟩]

/-- A collector that already holds checks.d sets from an earlier truthy call. -/
def colPrev : Collector :=
  { col0 with initialized_checks_d := [cdOk], init_failed_checks_d := [ifW] }

/-- A small payload with two pre-existing event source keys. -/
def pW : Payload :=
  { collection_timestamp := 0
    os := "linux"
    python := "p"
    agentVersion := "v"
    apiKey := "k"
    events := [("good_check", [Event.ev 9]), ("dogstream", [Event.ev 8])]
    metrics := []
    resources := []
    resources_meta := none
    internalHostname := "h"
    uuid := "u"
    systemStats := none
    meta := none
    tags := none
    extraKeys := [] }

/-- The report `col0.run baseEnv none true` produces (computed value). -/
def repW : CycleReport :=
  { payload :=
      { collection_timestamp := 1000
        os := "linux"
        python := "2.7"
        agentVersion := "4.2.1"
        apiKey := "key0"
        events := [("System",
          [Event.startup "key0" "host.internal" 1000 "Agent Startup" "Version 4.2.1"])]
        metrics := []
        resources := []
        resources_meta := none
        internalHostname := "host.internal"
        uuid := "uuid-1"
        systemStats := some [9]
        meta := some [("agent-hostname", "cfg-host"), ("socket-fqdn", "sock-fqdn"),
          ("hostname", "host.canonical")]
        tags := none
        extraKeys := ["processes"] }
    check_statuses := []
    emitter_statuses := []
    emitted := []
    persist_called := true
    persist_ok := true
    persisted_metadata := some [("agent-hostname", "cfg-host"),
      ("socket-fqdn", "sock-fqdn"), ("hostname", "host.canonical")] }

/-- C1 counterexample: a raising Unix disk check is NOT caught — `run()`
propagates the exception to its caller, aborting the whole cycle, contrary
to the claim that any one check's exception is caught and never propagated. -/
theorem c1_counterexample :
    (col0.run envC1raise none true).2 = .raised "disk boom" := by decide

/-- C3 counterexample: the stop flag is observed set before the first emitter
invocation (`cont 0 = false`, no checks.d work in this cycle); the claim
says `run()` then returns early with no status persistence, but the code
only truncates dispatch and still persists the collection status. -/
theorem c3_counterexample :
    envC3emit.cont 0 = false ∧
    runEmitted (col0.run envC3emit none true).2 = some [] ∧
    runPersistCalled (col0.run envC3emit none true).2 = true := by decide

/-- C4 counterexample: dogstream stores `[ev 1]` under the `dogstream` source
key, then an event-producing check with key `dogstream` stores `[ev 2]`:
the final payload holds `[ev 2]` alone — the event check OVERWROTE the
existing sequence instead of appending to it as the claim states. -/
theorem c4_counterexample :
    runEventsAt (col0.run envC4 none true).2 "dogstream" = some [Event.ev 2] ∧
    ¬ runEventsAt (col0.run envC4 none true).2 "dogstream" =
        some [Event.ev 1, Event.ev 2] := by decide

/-- C6 counterexample: (i) on a non-first cycle with elapsed time exactly
EQUAL to the interval (not exceeding it) the builder still recomputes
metadata; (ii) on a first cycle the builder recomputes but does NOT reset
the last-computed timestamp to now (`metadata_start` stays 900 ≠ now 1000). -/
theorem c6_counterexample :
    (isFirstRun colC6a = false ∧
      envC6a.now - colC6a.metadata_start = colC6a.metadata_interval ∧
      (buildPayload colC6a envC6a true).1.meta.isSome = true) ∧
    (isFirstRun colC6b = true ∧
      (buildPayload colC6b baseEnv true).1.meta.isSome = true ∧
      (buildPayload colC6b baseEnv true).2.metadata_start = colC6b.metadata_start ∧
      ¬ colC6b.metadata_start = baseEnv.now) := by decide

theorem c1_failure_isolation_witness :
    (col0.run envC1raise none true).2 = .raised "disk boom" ∧
    isCompleted (col0.run baseEnv (some ⟨[cdRaise, cdOk], [ifW]⟩) true).2 = true ∧
    isCompleted (colWin.run envWinRaise none true).2 = true :=
  ⟨(c1_failure_isolation col0 envC1raise none true "disk boom").1 (by decide) rfl,
   ((c1_failure_isolation col0 baseEnv (some ⟨[cdRaise, cdOk], [ifW]⟩) true "m").2.1
      (by decide) (by decide) (fun i => rfl)).1,
   (c1_failure_isolation colWin envWinRaise none true "m").2.2 rfl (by decide)
      (fun i => rfl)⟩

theorem c2_checksd_raise_zero_status_witness :
    runStatuses (col0.run baseEnv (some ⟨[cdRaise, cdOk], [ifW]⟩) true).2 =
      some [stRaise, stOk, stInit] :=
  ((c2_checksd_raise_zero_status col0 baseEnv [cdRaise, cdOk] [ifW] true (by decide)
      (by decide) (fun i => rfl) cdRaise "check boom" rfl).1).trans (by decide)

theorem c3_stop_behaviour_witness :
    (col0.run envStop (some ⟨[cdOk], []⟩) true).2 = .stopped ∧
    runPersistCalled (col0.run envC3emit none true).2 = true :=
  ⟨(c3_stop_behaviour col0 envStop (some ⟨[cdOk], []⟩) true 0 (by decide) (by decide)).1
      ⟨by decide, rfl, fun j hj => absurd hj (Nat.not_lt_zero j)⟩,
   ((c3_stop_behaviour col0 envC3emit none true 0 (by decide) (by decide)).2
      ⟨fun j hj => absurd hj (Nat.not_lt_zero j), rfl⟩).2.2⟩

theorem c4_events_merge_rules_witness :
    lookupA ((runCheckD pW cdOk).1).events "good_check" = some [Event.ev 9, Event.ev 3] ∧
    lookupA (setA pW.events "dogstream" [Event.ev 2]) "dogstream" = some [Event.ev 2] :=
  ⟨((c4_events_merge_rules pW cdOk ⟨[Event.ev 1], []⟩ ⟨"dogstream", .returns [Event.ev 2]⟩
      [1] [5, 6] [Event.ev 3] [Event.ev 2] rfl rfl rfl (by decide) (by decide) rfl
      (by decide)).1).trans (by decide),
   (c4_events_merge_rules pW cdOk ⟨[Event.ev 1], []⟩ ⟨"dogstream", .returns [Event.ev 2]⟩
      [1] [5, 6] [Event.ev 3] [Event.ev 2] rfl rfl rfl (by decide) (by decide) rfl
      (by decide)).2.2.2⟩

theorem c5_resources_meta_witness :
    runResMeta (col0.run envC5 none true).2 = some (some ⟨"key0", "host.internal"⟩) :=
  (c5_resources_meta col0 envC5 none true (by decide) (by decide)
      (fun i => rfl)).trans (by decide)

theorem c6_metadata_schedule_witness :
    (buildPayload colC6a envC6a true).1.meta.isSome = true :=
  ((c6_metadata_schedule colC6a envC6a true).1).mpr (Or.inr (by decide))

theorem c7_first_run_payload_witness :
    (buildPayload colFirst baseEnv true).1.meta.isSome = true ∧
    lookupA (buildPayload colFirst baseEnv true).1.events "System" =
      some [Event.startup "key0" "host.internal" 1000 "Agent Startup" "Version 4.2.1"] :=
  ⟨(c7_first_run_payload colFirst baseEnv true rfl).1,
   (((c7_first_run_payload colFirst baseEnv true rfl).2 rfl).1).trans (by decide)⟩

theorem c8_emitter_dispatch_witness :
    emitLoop (fun _ => true) 0 emittersW [] [] =
      ([⟨"e1", none⟩, ⟨"e2", some "fail"⟩, ⟨"e3", none⟩], ["e1", "e2", "e3"], 3) :=
  ((c8_emitter_dispatch (fun _ => true) emittersW 0 (fun i => rfl)
      ⟨"e2", .raises "fail"⟩ "fail").1).trans (by decide)

theorem c9_payload_key_invariants_witness :
    "events" ∈ payloadKeys repW.payload :=
  (c9_payload_key_invariants col0 baseEnv none true repW (by decide)).2.2.1

theorem c10_falsy_checksd_reuse_witness :
    runStatuses (colPrev.run baseEnv none true).2 = some [stOk, stInit] ∧
    (mkCollector cfg0 "linux" 600 900).initialized_checks_d = [] :=
  ⟨((c10_falsy_checksd_reuse colPrev baseEnv true (by decide) (by decide) (fun i => rfl)
      cfg0 "linux" 600 900).2.2.1).trans (by decide),
   (c10_falsy_checksd_reuse colPrev baseEnv true (by decide) (by decide) (fun i => rfl)
      cfg0 "linux" 600 900).2.2.2.1⟩

end DDCollector
